import Mathlib

/-! Yoga assistant and directory handlers.

A shallow embedding of `src/main.js`, `src/components/UI.js`,
`src/components/Canvas.js`, `src/utils/permissions.js` and
`src/utils/poseDetection.js` (namespace `Yoga`), and of the handlers
`/get-lawyers` and `/get-documentwriters` of `server.js` (namespace `Server`).

Modelling conventions.

* The numbers the program receives (coordinates, scores) are elements of a
  linear ordered field `F` (exact arithmetic, no rounding).  A number the
  program computes is a `JsNumber`: an element of `F` or `NaN`.  `Math.sqrt`
  and `Number.prototype.toFixed` are host functions and are fields of `Env`;
  the properties of `Math.sqrt` a theorem relies on are hypotheses of that
  theorem.
* `./config/referencePoints.js` is imported by `main.js`; the table it exports
  is the field `Env.referencePoints`, the own entries of an ordinary object in
  `Object.entries` order.  The property read `referencePoints[name]` finds an
  own entry, or else a member the object inherits from `Object.prototype`
  (`objectPrototypeNames`), or else nothing.
* Methods of `YogaAssistant`, `UI` and `Canvas` are transformers of the record
  `App`.  The field `App.trace` is a ghost log of the calls made, in order.
* Asynchronous code is a step function: every `await` is a suspension point,
  a suspended call is an entry of `App.tasks`, and the host resumes it with an
  `Input`.
-/

namespace Yoga

/-! ## Data -/

/-- One detected landmark, as read by `drawPose` and `calculateAccuracy`. -/
structure Keypoint (F : Type) where
  name : String
  x : F
  y : F
  score : F
deriving DecidableEq, Repr

/-- The part of a detected pose the program reads: `pose.keypoints`. -/
structure Pose (F : Type) where
  keypoints : List (Keypoint F)
deriving DecidableEq, Repr

/-- A value of the reference table: `{ x, y }`. -/
structure RefPoint (F : Type) where
  x : F
  y : F
deriving DecidableEq, Repr

/-- The `name` and `message` of a thrown JavaScript error. -/
structure JsError where
  name : String
  message : String
deriving DecidableEq, Repr

/-- A media stream handle returned by `getUserMedia`. -/
structure Stream where
  id : Nat
deriving DecidableEq, Repr

/-- A detector handle returned by `poseDetection.createDetector`. -/
structure Detector where
  id : Nat
deriving DecidableEq, Repr

/-- A number the program computes: an element of `F`, or `NaN`. -/
inductive JsNumber (F : Type) where
  | val (x : F)
  | nan
deriving DecidableEq, Repr

/-- What the property read `referencePoints[name]` returns. -/
inductive Property (F : Type) where
  /-- An own entry of the table: the object `{ x, y }`. -/
  | own (refPoint : RefPoint F)
  /-- A member inherited from `Object.prototype`: a function or object, which is
  truthy and whose `x` and `y` are `undefined`. -/
  | inherited
  /-- No property of that name: `undefined`. -/
  | undefined
deriving DecidableEq, Repr

/-- The property names every ordinary object inherits from `Object.prototype`. -/
def objectPrototypeNames : List String :=
  ["constructor", "hasOwnProperty", "isPrototypeOf", "propertyIsEnumerable",
    "toLocaleString", "toString", "valueOf", "__proto__", "__defineGetter__",
    "__defineSetter__", "__lookupGetter__", "__lookupSetter__"]

/-- Host functions and the imported reference table. -/
structure Env (F : Type) where
  /-- The function `Math.sqrt`. -/
  sqrt : F → F
  /-- The function `accuracy.toFixed(1)`. -/
  toFixed1 : F → String
  /-- The object exported by `./config/referencePoints.js`. -/
  referencePoints : List (String × RefPoint F)

/-- Calls made by the program, recorded in order in `App.trace`. -/
inductive Event (F : Type) where
  | tfReady
  | setBackend (backend : String)
  | getUserMedia (width height : Nat) (facingMode : String)
  | initializePoseDetector
  | hideError
  | showError (message : String)
  | consoleError (label message : String)
  | startDetection (detector : Detector)
  | estimatePoses (detector : Detector)
  | clear
  | drawKeypoint (x y : F) (color : String) (radius : Nat)
  | drawText (text : String) (x y : F) (color : String)
  | updateAccuracy (accuracy : JsNumber F)
  | requestAnimationFrame
deriving DecidableEq, Repr

/-- What a suspended call is waiting for. -/
inductive Cont where
  /-- Inside `init`: `await tf.ready()`. -/
  | tfReady
  /-- Inside `init`: `await tf.setBackend('webgl')`. -/
  | setBackend
  /-- Inside `init`: `await requestCameraPermission()`. -/
  | camera
  /-- Inside `init`: the promise resolved by `video.onloadedmetadata`. -/
  | metadata
  /-- Inside `init`: `await initializePoseDetector()`. -/
  | detector
  /-- Inside `detectPose`: `await detector.estimatePoses(this.video)`. -/
  | estimate (detector : Detector)
  /-- A callback `detectPose` registered with `requestAnimationFrame`. -/
  | frame (detector : Detector)
deriving DecidableEq, Repr

/-- The fields of `YogaAssistant`, the DOM state it writes, the pending
asynchronous calls and the log of calls made. -/
structure App (F : Type) where
  /-- The field `this.isRunning`. -/
  isRunning : Bool
  /-- The property `this.video.srcObject`. -/
  srcObject : Option Stream
  /-- The property `this.video.onloadedmetadata`: the `init` call whose promise it resolves. -/
  onloadedmetadata : Option Nat
  /-- The property `accuracyDisplay.textContent`. -/
  accuracyText : String
  /-- The property `errorDisplay.textContent`. -/
  errorText : String
  /-- The property `errorDisplay.style.display`. -/
  errorDisplay : String
  /-- Calls made so far, oldest first. -/
  trace : List (Event F)
  /-- Suspended calls: identifier and what each waits for. -/
  tasks : List (Nat × Cont)
  /-- Identifier given to the next `init` call. -/
  nextId : Nat
deriving DecidableEq, Repr

/-- The state after `new YogaAssistant()`: `isRunning = false`, nothing pending. -/
def App.new (F : Type) : App F :=
  { isRunning := false, srcObject := none, onloadedmetadata := none,
    accuracyText := "", errorText := "", errorDisplay := "",
    trace := [], tasks := [], nextId := 0 }

/-- Records one call at the end of the log. -/
def App.emit {F : Type} (s : App F) (e : Event F) : App F :=
  { s with trace := s.trace ++ [e] }

/-! ## `components/UI.js` -/

/-- The expression `accuracy.toFixed(1)`; on `NaN` it is the text `NaN`. -/
def JsNumber.toFixed1 {F : Type} (env : Env F) : JsNumber F → String
  | .val x => env.toFixed1 x
  | .nan => "NaN"

/-- The method `UI.updateAccuracy(accuracy)`. -/
def UI.updateAccuracy {F : Type} (env : Env F) (accuracy : JsNumber F) (s : App F) : App F :=
  { s.emit (Event.updateAccuracy accuracy) with
    accuracyText := "Pose Accuracy: " ++ accuracy.toFixed1 env ++ "%" }

/-- The method `UI.showError(message)`. -/
def UI.showError {F : Type} (message : String) (s : App F) : App F :=
  { s.emit (Event.showError message) with errorText := message, errorDisplay := "block" }

/-- The method `UI.hideError()`. -/
def UI.hideError {F : Type} (s : App F) : App F :=
  { s.emit Event.hideError with errorDisplay := "none" }

/-! ## `components/Canvas.js` -/

/-- The method `Canvas.clear()`. -/
def Canvas.clear {F : Type} (s : App F) : App F :=
  s.emit Event.clear

/-- The method `Canvas.drawKeypoint(x, y, color, radius)`.  The source declares the
defaults `color = "blue"` and `radius = 5`; every caller below passes them explicitly. -/
def Canvas.drawKeypoint {F : Type} (x y : F) (color : String) (radius : Nat) (s : App F) :
    App F :=
  s.emit (Event.drawKeypoint x y color radius)

/-- The method `Canvas.drawText(text, x, y, color)`.  The source declares the default
`color = "green"`; the caller below passes it explicitly. -/
def Canvas.drawText {F : Type} (text : String) (x y : F) (color : String) (s : App F) :
    App F :=
  s.emit (Event.drawText text x y color)

/-! ## `main.js`: drawing and scoring -/

section Scoring

variable {F : Type} [LinearOrderedField F]

/-- The method `drawPose(pose)`: one `drawKeypoint` per keypoint with `score > 0.3`. -/
def drawPose (pose : Pose F) (s : App F) : App F :=
  pose.keypoints.foldl
    (fun acc keypoint =>
      if keypoint.score > 3 / 10 then Canvas.drawKeypoint keypoint.x keypoint.y "blue" 5 acc
      else acc)
    s

/-- The method `drawReferencePoints()`: a green point and a label per table entry. -/
def drawReferencePoints (env : Env F) (s : App F) : App F :=
  env.referencePoints.foldl
    (fun acc entry =>
      Canvas.drawText entry.1 entry.2.x entry.2.y "green"
        (Canvas.drawKeypoint entry.2.x entry.2.y "green" 5 acc))
    s

/-- The property read `referencePoints[name]`: an own entry first, then the
members inherited from `Object.prototype`. -/
def readReference (env : Env F) (name : String) : Property F :=
  match env.referencePoints.lookup name with
  | some refPoint => .own refPoint
  | none => if name ∈ objectPrototypeNames then .inherited else .undefined

/-- The sum `a + b` of computed numbers: `NaN` when either is `NaN`. -/
def JsNumber.add : JsNumber F → JsNumber F → JsNumber F
  | .val a, .val b => .val (a + b)
  | _, _ => .nan

/-- An arithmetic expression in one computed number: `NaN` when it is `NaN`.
This covers `total / count`, `/ 2`, `100 - ...` and `Math.max(0, ...)`. -/
def JsNumber.map (f : F → F) : JsNumber F → JsNumber F
  | .val a => .val (f a)
  | .nan => .nan

/-- The body of the `forEach` in `calculateAccuracy`, on the pair
`(totalDistance, pointsCount)`.  The test `refPoint && keypoint.score > 0.3`
passes for an inherited member too; its `x` and `y` are `undefined`, so the
differences, their squares, the square root and the new total are `NaN`. -/
def scoreKeypoint (env : Env F) (acc : JsNumber F × Nat) (keypoint : Keypoint F) :
    JsNumber F × Nat :=
  match readReference env keypoint.name with
  | .own refPoint =>
    if keypoint.score > 3 / 10 then
      (acc.1.add (.val (env.sqrt
          ((keypoint.x - refPoint.x) ^ 2 + (keypoint.y - refPoint.y) ^ 2))),
        acc.2 + 1)
    else acc
  | .inherited =>
    if keypoint.score > 3 / 10 then (acc.1.add .nan, acc.2 + 1) else acc
  | .undefined => acc

/-- The method `calculateAccuracy(pose)`. -/
def calculateAccuracy (env : Env F) (pose : Pose F) (s : App F) : App F :=
  let totals := pose.keypoints.foldl (scoreKeypoint env) (.val 0, 0)
  if totals.2 > 0 then
    UI.updateAccuracy env
      (totals.1.map fun totalDistance => max 0 (100 - totalDistance / (totals.2 : F) / 2)) s
  else s

/-! ### The scoring rule as the specification words it -/

/-- Specification side: the keypoints with score strictly above 0.3 whose name
is a key of the table, each paired with its reference point. -/
def matchedKeypoints (env : Env F) (pose : Pose F) : List (Keypoint F × RefPoint F) :=
  pose.keypoints.filterMap fun k =>
    if k.score > 3 / 10 then (env.referencePoints.lookup k.name).map fun r => (k, r) else none

/-- Specification side: Euclidean distance between a keypoint and its reference point. -/
def euclidean (env : Env F) (m : Keypoint F × RefPoint F) : F :=
  env.sqrt ((m.1.x - m.2.x) ^ 2 + (m.1.y - m.2.y) ^ 2)

/-- Specification side: `max(0, 100 - (sum of distances) / |M| / 2)`. -/
def specAccuracy (env : Env F) (pose : Pose F) : F :=
  max 0 (100 - ((matchedKeypoints env pose).map (euclidean env)).sum
    / ((matchedKeypoints env pose).length : F) / 2)

/-- The keypoints with score strictly above 0.3 whose name is not a key of the
table but is found by the property read, as a member of `Object.prototype`. -/
def inheritedKeypoints (env : Env F) (pose : Pose F) : List (Keypoint F) :=
  pose.keypoints.filter fun k =>
    decide (k.score > 3 / 10) && decide (readReference env k.name = Property.inherited)

/-- The value `calculateAccuracy` reports when it reports: the value of the
specification, or `NaN` once a keypoint with an inherited name was counted. -/
def reportedAccuracy (env : Env F) (pose : Pose F) : JsNumber F :=
  if inheritedKeypoints env pose = [] then .val (specAccuracy env pose) else .nan

end Scoring

/-! ## `utils/permissions.js` and `utils/poseDetection.js` -/

/-- The expression `new Error(message)`. -/
def newError (message : String) : JsError :=
  { name := "Error", message := message }

/-- The function `requestCameraPermission()`, as a function of how the
`getUserMedia` promise it awaits settles.  The call of `getUserMedia` itself is
recorded by `step` at the point where `init` calls this function. -/
def requestCameraPermission (outcome : Except JsError Stream) : Except JsError Stream :=
  match outcome with
  | .ok stream => .ok stream
  | .error error =>
    if error.name = "NotAllowedError" then
      .error (newError
        "Camera permission denied. Please allow camera access to use the Yoga Assistant.")
    else if error.name = "NotFoundError" then
      .error (newError "No camera found. Please connect a camera to use the Yoga Assistant.")
    else
      .error (newError ("Camera error: " ++ error.message))

/-- The function `initializePoseDetector()`, as a function of how the
`createDetector` promise it awaits settles. -/
def initializePoseDetector (outcome : Except JsError Detector) : Except JsError Detector :=
  match outcome with
  | .ok detector => .ok detector
  | .error error => .error (newError ("Failed to initialize pose detector: " ++ error.message))

/-! ## `main.js`: `init` and the detection loop as a step function -/

/-- The suspended call `id` now waits for `c`. -/
def App.suspend {F : Type} (s : App F) (id : Nat) (c : Cont) : App F :=
  { s with tasks := s.tasks.map fun t => if t.1 = id then (id, c) else t }

/-- The suspended call `id` has returned. -/
def App.finish {F : Type} (s : App F) (id : Nat) : App F :=
  { s with tasks := s.tasks.filter fun t => t.1 ≠ id }

/-- What the suspended call `id` waits for, if it is pending. -/
def App.awaiting {F : Type} (s : App F) (id : Nat) : Option Cont :=
  s.tasks.lookup id

/-- The `catch` block of `init`: `showError(error.message)`, `console.error(...)`,
then `init` returns. -/
def initCatch {F : Type} (error : JsError) (id : Nat) (s : App F) : App F :=
  ((UI.showError error.message s).emit
    (Event.consoleError "Error initializing:" error.message)).finish id

/-- What the host tells the program: a call of `init`, the settling of an awaited
promise, a DOM event, an animation frame, or a stop request. -/
inductive Input (F : Type) where
  /-- A call `assistant.init()`. -/
  | init
  /-- The promise `tf.ready()` awaited by call `id` settles. -/
  | tfReadyDone (id : Nat) (outcome : Except JsError Unit)
  /-- The promise `tf.setBackend('webgl')` awaited by call `id` settles. -/
  | setBackendDone (id : Nat) (outcome : Except JsError Unit)
  /-- The promise `getUserMedia(...)` awaited on behalf of call `id` settles. -/
  | getUserMediaDone (id : Nat) (outcome : Except JsError Stream)
  /-- The video element fires `loadedmetadata`. -/
  | loadedmetadata
  /-- The promise `createDetector(...)` awaited on behalf of call `id` settles. -/
  | createDetectorDone (id : Nat) (outcome : Except JsError Detector)
  /-- The promise `detector.estimatePoses(video)` awaited by loop `id` settles. -/
  | estimatePosesDone (id : Nat) (outcome : Except JsError (List (Pose F)))
  /-- The browser runs the animation-frame callback registered by loop `id`. -/
  | animationFrame (id : Nat)
  /-- A stop request: `isRunning` is set to `false` from outside the loop. -/
  | stop

section Controller

variable {F : Type} [LinearOrderedField F]

/-- The closure `detectPose` up to its `await`: return at once when not running,
otherwise call `detector.estimatePoses(this.video)` and suspend. -/
def detectPose (id : Nat) (detector : Detector) (s : App F) : App F :=
  if !s.isRunning then s.finish id
  else (s.emit (Event.estimatePoses detector)).suspend id (Cont.estimate detector)

/-- The closure `detectPose` from its `await` on: the `try` body after a result,
or the `catch` block after a failure. -/
def detectPoseResume (env : Env F) (id : Nat) (detector : Detector)
    (outcome : Except JsError (List (Pose F))) (s : App F) : App F :=
  match outcome with
  | .ok poses =>
    let cleared := Canvas.clear s
    let drawn :=
      match poses with
      | pose :: _ => calculateAccuracy env pose (drawReferencePoints env (drawPose pose cleared))
      | [] => cleared
    (drawn.emit Event.requestAnimationFrame).suspend id (Cont.frame detector)
  | .error _ =>
    ({ UI.showError "Error detecting pose. Please refresh the page." s with
        isRunning := false }).finish id

/-- One resumption of the program by the host.  An input that names a call not
waiting for it leaves the state unchanged. -/
def step (env : Env F) (s : App F) : Input F → App F
  | .init =>
    { s.emit Event.tfReady with
      tasks := s.tasks ++ [(s.nextId, Cont.tfReady)], nextId := s.nextId + 1 }
  | .tfReadyDone id outcome =>
    if s.awaiting id = some Cont.tfReady then
      match outcome with
      | .ok _ => (s.emit (Event.setBackend "webgl")).suspend id Cont.setBackend
      | .error error => initCatch error id s
    else s
  | .setBackendDone id outcome =>
    if s.awaiting id = some Cont.setBackend then
      match outcome with
      | .ok _ => (s.emit (Event.getUserMedia 640 480 "user")).suspend id Cont.camera
      | .error error => initCatch error id s
    else s
  | .getUserMediaDone id outcome =>
    if s.awaiting id = some Cont.camera then
      match requestCameraPermission outcome with
      | .ok stream =>
        ({ s with srcObject := some stream, onloadedmetadata := some id }).suspend id
          Cont.metadata
      | .error error => initCatch error id s
    else s
  | .loadedmetadata =>
    match s.onloadedmetadata with
    | some id =>
      if s.awaiting id = some Cont.metadata then
        (s.emit Event.initializePoseDetector).suspend id Cont.detector
      else s
    | none => s
  | .createDetectorDone id outcome =>
    if s.awaiting id = some Cont.detector then
      match initializePoseDetector outcome with
      | .ok detector =>
        let running := { UI.hideError s with isRunning := true }
        detectPose id detector (running.emit (Event.startDetection detector))
      | .error error => initCatch error id s
    else s
  | .estimatePosesDone id outcome =>
    match s.awaiting id with
    | some (Cont.estimate detector) => detectPoseResume env id detector outcome s
    | _ => s
  | .animationFrame id =>
    match s.awaiting id with
    | some (Cont.frame detector) => detectPose id detector s
    | _ => s
  | .stop => { s with isRunning := false }

/-- The state after the host delivers the inputs in order. -/
def run (env : Env F) (s : App F) (inputs : List (Input F)) : App F :=
  inputs.foldl (step env) s

end Controller

/-! ## Vocabulary for statements about runs -/

section RunVocabulary

variable {F : Type} [LinearOrderedField F]

/-- Specification side: the calls of `drawPose`, one blue point per keypoint
with score above 0.3, in pose order. -/
def drawPoseEvents (pose : Pose F) : List (Event F) :=
  (pose.keypoints.filter fun k => decide (k.score > 3 / 10)).map
    fun k => Event.drawKeypoint k.x k.y "blue" 5

/-- Specification side: the calls of `drawReferencePoints`, a green point then
its label for each entry of the table, in table order. -/
def referenceEvents (env : Env F) : List (Event F) :=
  env.referencePoints.flatMap fun entry =>
    [Event.drawKeypoint entry.2.x entry.2.y "green" 5,
      Event.drawText entry.1 entry.2.x entry.2.y "green"]

/-- The calls of `calculateAccuracy`: one update when a keypoint is counted,
matched or of inherited name, and none otherwise. -/
def accuracyEvents (env : Env F) (pose : Pose F) : List (Event F) :=
  if matchedKeypoints env pose = [] ∧ inheritedKeypoints env pose = [] then []
  else [Event.updateAccuracy (reportedAccuracy env pose)]

/-- Specification side: the calls of one loop iteration whose inference call
returned `poses`. -/
def frameEvents (env : Env F) (poses : List (Pose F)) : List (Event F) :=
  [Event.clear]
    ++ (match poses with
        | pose :: _ => drawPoseEvents pose ++ referenceEvents env ++ accuracyEvents env pose
        | [] => [])
    ++ [Event.requestAnimationFrame]

/-- The calls a loop iteration makes after its inference call: canvas clear and
draw calls, the accuracy update and the scheduling of the next iteration. -/
def Event.isFrameEffect : Event F → Bool
  | .clear => true
  | .drawKeypoint _ _ _ _ => true
  | .drawText _ _ _ _ => true
  | .updateAccuracy _ => true
  | .requestAnimationFrame => true
  | _ => false

/-- The inputs that complete a setup sequence: a detector was created. -/
def Input.completesSetup : Input F → Bool
  | .createDetectorDone _ (.ok _) => true
  | _ => false

/-- Whether a call of `estimatePoses` is what a suspended call waits for. -/
def Cont.isEstimate : Cont → Bool
  | .estimate _ => true
  | _ => false

/-- The number of `estimatePoses` calls outstanding. -/
def App.outstanding (s : App F) : Nat :=
  s.tasks.countP fun t => t.2.isEstimate

end RunVocabulary

/-! ## Concrete inputs over the rationals -/

/-- One-decimal formatting of a non-negative rational: round to the nearest
tenth, halves upwards, as `toFixed(1)` does. -/
def toFixed1Rat (q : ℚ) : String :=
  let tenths := ⌊q * 10 + 1 / 2⌋
  toString (tenths / 10) ++ "." ++ toString (tenths % 10)

/-- A host over the rationals.  `Rat.sqrt` is exact on squares of rationals.
The table has two reference points. -/
def ratEnv : Env ℚ :=
  { sqrt := Rat.sqrt
    toFixed1 := toFixed1Rat
    referencePoints := [("nose", ⟨320, 120⟩), ("left_wrist", ⟨200, 300⟩)] }

/-- A pose whose one matched keypoint `nose` lies 40 to the right of its
reference; `left_wrist` has score exactly 0.3 and `tail` is not in the table. -/
def poseNoseOff40 : Pose ℚ :=
  ⟨[⟨"nose", 360, 120, 9 / 10⟩, ⟨"left_wrist", 200, 300, 3 / 10⟩,
    ⟨"tail", 0, 0, 1⟩]⟩

/-- A pose whose one matched keypoint `nose` is on its reference point. -/
def poseNoseExact : Pose ℚ :=
  ⟨[⟨"left_wrist", 0, 0, 1 / 10⟩, ⟨"nose", 320, 120, 9 / 10⟩, ⟨"tail", 5, 5, 1⟩]⟩

/-- A pose with `nose` matched at distance 40 and a confident keypoint named
`constructor`, a name that is not a key of the table. -/
def poseNoseAndConstructor : Pose ℚ :=
  ⟨[⟨"nose", 360, 120, 9 / 10⟩, ⟨"constructor", 0, 0, 9 / 10⟩]⟩

/-- A pose whose only keypoint is confident and named `constructor`. -/
def poseConstructorOnly : Pose ℚ :=
  ⟨[⟨"constructor", 10, 10, 9 / 10⟩]⟩

/-- A pose with `nose` matched on its reference point and a confident keypoint
named `toString`, a name that is not a key of the table. -/
def poseNoseExactAndToString : Pose ℚ :=
  ⟨[⟨"nose", 320, 120, 9 / 10⟩, ⟨"toString", 0, 0, 9 / 10⟩]⟩

/-- A pose whose only keypoint is confident and named `valueOf`. -/
def poseValueOfOnly : Pose ℚ :=
  ⟨[⟨"valueOf", 5, 5, 9 / 10⟩]⟩

/-- A successful setup of the first `init` call: every awaited promise
resolves, the stream is `1` and the detector is `7`. -/
def setupInputs : List (Input ℚ) :=
  [.init, .tfReadyDone 0 (.ok ()), .setBackendDone 0 (.ok ()),
    .getUserMediaDone 0 (.ok ⟨1⟩), .loadedmetadata, .createDetectorDone 0 (.ok ⟨7⟩)]

/-- The state in which the loop of the first `init` call awaits its first
inference result. -/
def runningApp : App ℚ :=
  run ratEnv (App.new ℚ) setupInputs

/-- The state in which a first `init` call awaits the camera. -/
def awaitingCameraApp : App ℚ :=
  run ratEnv (App.new ℚ) [.init, .tfReadyDone 0 (.ok ()), .setBackendDone 0 (.ok ())]

end Yoga

/-! ## `server.js`: the directory handlers `/get-lawyers` and `/get-documentwriters`

The two database queries of a handler are taken to succeed; `find` with a filter
is the sublist of the collection that satisfies it.  The object `avgMap` is only
indexed, never enumerated: it is a finite map from keys to entries.  Its keys
are the `String(l._id)` of the profiles found, identifiers of documents.
`Number` on strings is a host function and a parameter. -/

namespace Server

/-- A stored value of a document field. -/
inductive Value (F : Type) where
  | str (s : String)
  | num (n : F)
  | bool (b : Bool)
deriving DecidableEq, Repr

/-- A profile document as `.lean()` returns it: `String(l._id)` and the other
stored fields, in order. -/
structure Profile (F : Type) where
  _id : String
  fields : List (String × Value F)
deriving DecidableEq, Repr

/-- The fields of a rating document the handlers read.  `rating` is `none` when
the document has no such field. -/
structure Rating where
  lawyerId : String
  rating : Option String
deriving DecidableEq, Repr

/-- An entry `{ sum, count }` of `avgMap`. -/
structure Tally (F : Type) where
  sum : F
  count : Nat

section Handlers

variable {F : Type} [LinearOrderedField F]

/-- The expression `Number(r.rating) || 0`; `toNumber` is `Number` on strings,
`none` standing for `NaN`. -/
def ratingNumber (toNumber : String → Option F) (r : Rating) : F :=
  match r.rating.bind toNumber with
  | some n => if n = 0 then 0 else n
  | none => 0

/-- The body of `ratings.forEach`: create the entry of `String(r.lawyerId)` when
absent, add the rating to its `sum` and one to its `count`. -/
def tally (toNumber : String → Option F) (avgMap : String → Option (Tally F)) (r : Rating) :
    String → Option (Tally F) :=
  let id := r.lawyerId
  let entry := (avgMap id).getD ⟨0, 0⟩
  fun key =>
    if key = id then some ⟨entry.sum + ratingNumber toNumber r, entry.count + 1⟩
    else avgMap key

/-- The object `{ ...l, key: value }` on the field list: a field already there
keeps its place and takes the new value, otherwise the field is added last. -/
def assign (key : String) (value : Value F) (fields : List (String × Value F)) :
    List (String × Value F) :=
  if fields.any fun f => f.1 = key then
    fields.map fun f => if f.1 = key then (key, value) else f
  else fields ++ [(key, value)]

/-- The callback of `lawyers.map`: `{ ...l, avgRating: avg }`. -/
def withAvgRating (avgMap : String → Option (Tally F)) (l : Profile F) : Profile F :=
  let avg :=
    match avgMap l._id with
    | some entry => entry.sum / (entry.count : F)
    | none => 0
  { l with fields := assign "avgRating" (Value.num avg) l.fields }

/-- The filter `{ isVerified: true }`. -/
def isVerified (l : Profile F) : Bool :=
  l.fields.lookup "isVerified" == some (Value.bool true)

/-- The handler of `GET /get-lawyers`: the list it sends. -/
def getLawyers (toNumber : String → Option F) (legalServices : List (Profile F))
    (ratingsCollection : List Rating) : List (Profile F) :=
  let lawyers := legalServices.filter isVerified
  let lawyerIds : List String := lawyers.map fun l => l._id
  let ratings := ratingsCollection.filter fun r => decide (r.lawyerId ∈ lawyerIds)
  let avgMap := ratings.foldl (tally toNumber) fun _ => none
  lawyers.map (withAvgRating avgMap)

/-- The handler of `GET /get-documentwriters`: the list it sends. -/
def getDocumentwriters (toNumber : String → Option F) (documentWriters : List (Profile F))
    (ratingsCollection : List Rating) : List (Profile F) :=
  let writers := documentWriters.filter isVerified
  let writerIds : List String := writers.map fun w => w._id
  let ratings := ratingsCollection.filter fun r => decide (r.lawyerId ∈ writerIds)
  let avgMap := ratings.foldl (tally toNumber) fun _ => none
  writers.map (withAvgRating avgMap)

/-- Specification side: the arithmetic mean of the ratings whose `lawyerId` is
`id`, a rating that is not numeric counting as 0, and 0 when there is none. -/
def meanRating (toNumber : String → Option F) (ratings : List Rating) (id : String) : F :=
  let own := ratings.filter fun r => decide (r.lawyerId = id)
  if own.isEmpty then 0
  else (own.map fun r => (r.rating.bind toNumber).getD 0).sum / (own.length : F)

end Handlers

/-- A `Number` over the rationals that reads strings of decimal digits only;
the empty string reads as 0. -/
def natNumber (s : String) : Option ℚ :=
  if s.data.all Char.isDigit then
    some (s.data.foldl (fun n c => 10 * n + ((c.toNat - 48 : ℕ) : ℚ)) 0)
  else none

/-- A verified lawyer whose document holds a stored `avgRating`. -/
def lawyerStored : Profile ℚ :=
  ⟨"65a1", [("name", .str "Asha"), ("isVerified", .bool true), ("avgRating", .str "4.5")]⟩

/-- A verified lawyer without a stored `avgRating`. -/
def lawyerPlain : Profile ℚ :=
  ⟨"65a2", [("name", .str "Ravi"), ("isVerified", .bool true)]⟩

/-- A profile that is not verified. -/
def lawyerPending : Profile ℚ :=
  ⟨"65a3", [("name", .str "Meera"), ("isVerified", .bool false)]⟩

/-- Ratings of `lawyerPlain`: 4, a text that is not a number, and 5; and one
rating of a profile that is not in the directory. -/
def someRatings : List Rating :=
  [⟨"65a2", some "4"⟩, ⟨"65a2", some "good"⟩, ⟨"65a9", some "1"⟩, ⟨"65a2", some "5"⟩]

end Server

namespace Yoga

/-! ## Scoring: the loop of `calculateAccuracy` against the specification -/

section ReadFacts

variable {F : Type}

/-- The property read finds an own entry exactly when the name is a key. -/
lemma readReference_own (env : Env F) (name : String) (r : RefPoint F) :
    readReference env name = .own r ↔ env.referencePoints.lookup name = some r := by
  unfold readReference
  cases h : env.referencePoints.lookup name with
  | none => by_cases hn : name ∈ objectPrototypeNames <;> simp [hn]
  | some r0 => simp

/-- The property read finds an inherited member only when the name is not a key. -/
lemma lookup_of_inherited (env : Env F) (name : String)
    (h : readReference env name = .inherited) : env.referencePoints.lookup name = none := by
  unfold readReference at h
  cases hl : env.referencePoints.lookup name with
  | none => rfl
  | some r0 => simp [hl] at h

end ReadFacts

section ScoringFacts

variable {F : Type} [LinearOrderedField F]

/-- Adding `NaN` gives `NaN`. -/
lemma JsNumber.add_nan (a : JsNumber F) : a.add .nan = .nan := by
  cases a <;> rfl

/-- Adding to `NaN` gives `NaN`. -/
lemma JsNumber.nan_add (a : JsNumber F) : JsNumber.nan.add a = .nan := by
  cases a <;> rfl

/-- The accumulator after the `forEach`: the count grows by the number of
keypoints counted, matched or of inherited name; the total grows by the sum of
the matched distances, and is `NaN` once a keypoint of inherited name is counted. -/
lemma foldl_scoreKeypoint (env : Env F) (kps : List (Keypoint F)) (acc : JsNumber F × Nat) :
    kps.foldl (scoreKeypoint env) acc =
      (acc.1.add (if inheritedKeypoints env ⟨kps⟩ = [] then
          .val ((matchedKeypoints env ⟨kps⟩).map (euclidean env)).sum else .nan),
        acc.2 + (matchedKeypoints env ⟨kps⟩).length + (inheritedKeypoints env ⟨kps⟩).length) := by
  induction kps generalizing acc with
  | nil =>
    obtain ⟨a, n⟩ := acc
    cases a <;> simp [matchedKeypoints, inheritedKeypoints, JsNumber.add]
  | cons k ks ih =>
    rw [List.foldl_cons, ih]
    obtain ⟨a, n⟩ := acc
    by_cases hs : k.score > 3 / 10
    · cases hr : readReference env k.name with
      | own r =>
        have hl := (readReference_own env k.name r).mp hr
        have hm : matchedKeypoints env ⟨k :: ks⟩ = (k, r) :: matchedKeypoints env ⟨ks⟩ := by
          simp [matchedKeypoints, hs, hl]
        have hi : inheritedKeypoints env ⟨k :: ks⟩ = inheritedKeypoints env ⟨ks⟩ := by
          simp [inheritedKeypoints, List.filter_cons, hr]
        simp only [scoreKeypoint, hr, hs, if_true, hm, hi, List.map_cons, List.sum_cons,
          List.length_cons, euclidean]
        refine Prod.ext ?_ (by simp only; omega)
        by_cases he : inheritedKeypoints env ⟨ks⟩ = []
        · cases a <;> simp [he, JsNumber.add, add_assoc]
        · simp [he, JsNumber.add_nan]
      | inherited =>
        have hl := lookup_of_inherited env k.name hr
        have hm : matchedKeypoints env ⟨k :: ks⟩ = matchedKeypoints env ⟨ks⟩ := by
          simp [matchedKeypoints, hs, hl]
        have hi : inheritedKeypoints env ⟨k :: ks⟩ = k :: inheritedKeypoints env ⟨ks⟩ := by
          simp [inheritedKeypoints, List.filter_cons, hr, hs]
        simp only [scoreKeypoint, hr, hs, if_true, hm, hi, List.length_cons]
        refine Prod.ext ?_ (by simp only; omega)
        simp [JsNumber.add_nan, JsNumber.nan_add]
      | undefined =>
        have hl : env.referencePoints.lookup k.name = none := by
          unfold readReference at hr
          cases hl : env.referencePoints.lookup k.name with
          | none => rfl
          | some r0 => simp [hl] at hr
        have hm : matchedKeypoints env ⟨k :: ks⟩ = matchedKeypoints env ⟨ks⟩ := by
          simp [matchedKeypoints, hs, hl]
        have hi : inheritedKeypoints env ⟨k :: ks⟩ = inheritedKeypoints env ⟨ks⟩ := by
          simp [inheritedKeypoints, List.filter_cons, hr]
        simp only [scoreKeypoint, hr, hm, hi]
    · have hm : matchedKeypoints env ⟨k :: ks⟩ = matchedKeypoints env ⟨ks⟩ := by
        simp [matchedKeypoints, hs]
      have hi : inheritedKeypoints env ⟨k :: ks⟩ = inheritedKeypoints env ⟨ks⟩ := by
        simp [inheritedKeypoints, List.filter_cons, hs]
      have hk : scoreKeypoint env (a, n) k = (a, n) := by
        unfold scoreKeypoint
        split <;> simp [hs]
      rw [hk, hm, hi]

/-- The method `calculateAccuracy` in closed form: no call when no keypoint is
counted, otherwise one `updateAccuracy` call with `reportedAccuracy`. -/
lemma calculateAccuracy_eq (env : Env F) (pose : Pose F) (s : App F) :
    calculateAccuracy env pose s =
      if matchedKeypoints env pose = [] ∧ inheritedKeypoints env pose = [] then s
      else UI.updateAccuracy env (reportedAccuracy env pose) s := by
  unfold calculateAccuracy
  rw [foldl_scoreKeypoint]
  by_cases hm : matchedKeypoints env pose = []
  · by_cases hi : inheritedKeypoints env pose = []
    · simp [hm, hi]
    · have hpos : 0 < (inheritedKeypoints env pose).length := List.length_pos.mpr hi
      simp [hm, hi, hpos, reportedAccuracy, JsNumber.add, JsNumber.map]
  · have hpos : 0 < (matchedKeypoints env pose).length := List.length_pos.mpr hm
    by_cases hi : inheritedKeypoints env pose = []
    · simp [hm, hi, hpos, reportedAccuracy, JsNumber.add, JsNumber.map, specAccuracy]
    · simp [hm, hi, hpos, reportedAccuracy, JsNumber.add, JsNumber.map]

/-- With a matched keypoint and no counted keypoint of inherited name,
`calculateAccuracy` is one `updateAccuracy` call with the value of the
specification. -/
lemma calculateAccuracy_of_matched (env : Env F) (pose : Pose F) (s : App F)
    (hown : inheritedKeypoints env pose = []) (h : matchedKeypoints env pose ≠ []) :
    calculateAccuracy env pose s
      = UI.updateAccuracy env (.val (specAccuracy env pose)) s := by
  rw [calculateAccuracy_eq]
  simp [h, hown, reportedAccuracy]

/-- Without a counted keypoint, `calculateAccuracy` changes nothing. -/
lemma calculateAccuracy_of_unmatched (env : Env F) (pose : Pose F) (s : App F)
    (hown : inheritedKeypoints env pose = []) (h : matchedKeypoints env pose = []) :
    calculateAccuracy env pose s = s := by
  rw [calculateAccuracy_eq]
  simp [h, hown]

/-- With a counted keypoint of inherited name, `calculateAccuracy` reports `NaN`. -/
lemma calculateAccuracy_of_inherited (env : Env F) (pose : Pose F) (s : App F)
    (h : inheritedKeypoints env pose ≠ []) :
    calculateAccuracy env pose s = UI.updateAccuracy env .nan s := by
  rw [calculateAccuracy_eq]
  simp [h, reportedAccuracy]

/-- A fold that skips the elements failing `p` is the fold over the elements passing `p`. -/
lemma foldl_filter_skip {α β : Type} (f : β → α → β) (p : α → Bool)
    (h : ∀ b a, p a = false → f b a = b) (l : List α) (b : β) :
    (l.filter p).foldl f b = l.foldl f b := by
  induction l generalizing b with
  | nil => rfl
  | cons a as ih =>
    cases hp : p a with
    | true => simp [List.filter_cons, hp, ih]
    | false => simp [List.filter_cons, hp, ih, h b a hp]

/-- A keypoint is matched exactly when its score is above 0.3 and its name is a key. -/
lemma matchedKeypoints_eq_nil_iff (env : Env F) (pose : Pose F) :
    matchedKeypoints env pose = [] ↔
      ∀ k ∈ pose.keypoints,
        ¬ (k.score > 3 / 10 ∧ k.name ∈ env.referencePoints.map Prod.fst) := by
  unfold matchedKeypoints
  rw [List.filterMap_eq_nil_iff]
  constructor
  · intro h k hk ⟨hs, hn⟩
    have := h k hk
    simp only [hs, if_true, Option.map_eq_none'] at this
    rw [List.lookup_eq_none_iff] at this
    obtain ⟨p, hp, hpk⟩ := List.mem_map.mp hn
    have := this p hp
    simp [hpk] at this
  · intro h k hk
    by_cases hs : k.score > 3 / 10
    · simp only [hs, if_true, Option.map_eq_none']
      rw [List.lookup_eq_none_iff]
      intro p hp
      have hn : k.name ∉ env.referencePoints.map Prod.fst := fun hn => h k hk ⟨hs, hn⟩
      simp only [bne_iff_ne, ne_eq]
      intro hkp
      exact hn (List.mem_map.mpr ⟨p, hp, hkp.symm⟩)
    · simp [hs]

/-- The non-negativity of every distance, from that of `Math.sqrt`. -/
lemma euclidean_sum_nonneg (env : Env F) (hsqrt : ∀ x, 0 ≤ x → 0 ≤ env.sqrt x)
    (ms : List (Keypoint F × RefPoint F)) : 0 ≤ (ms.map (euclidean env)).sum := by
  apply List.sum_nonneg
  intro d hd
  obtain ⟨m, _, rfl⟩ := List.mem_map.mp hd
  exact hsqrt _ (by positivity)

end ScoringFacts

section ScoringClaims

variable {F : Type} [LinearOrderedField F]

/-- The scoring rule on poses that count no keypoint of inherited name: when
the set M of keypoints with score above 0.3 and a name in the table is
non-empty, `calculateAccuracy` makes exactly one `updateAccuracy` call, with
the value `max(0, 100 - (sum over M of the distances) / |M| / 2)`, and the
display shows that value; one matched keypoint at distance 40 reports 80, two
matched keypoints at distances 0 and 100 report 75. -/
lemma average_of_own_names (env : Env F) (pose : Pose F) (s : App F)
    (hown : inheritedKeypoints env pose = []) (h : matchedKeypoints env pose ≠ []) :
    (calculateAccuracy env pose s).trace
        = s.trace ++ [Event.updateAccuracy (.val (specAccuracy env pose))]
      ∧ (calculateAccuracy env pose s).accuracyText
        = "Pose Accuracy: " ++ env.toFixed1 (specAccuracy env pose) ++ "%"
      ∧ (∀ m, matchedKeypoints env pose = [m] → euclidean env m = 40 →
          (calculateAccuracy env pose s).trace = s.trace ++ [Event.updateAccuracy (.val 80)])
      ∧ (∀ m n, matchedKeypoints env pose = [m, n] → euclidean env m = 0 →
          euclidean env n = 100 →
          (calculateAccuracy env pose s).trace
            = s.trace ++ [Event.updateAccuracy (.val 75)]) := by
  rw [calculateAccuracy_of_matched env pose s hown h]
  refine ⟨rfl, rfl, ?_, ?_⟩
  · intro m hm hd
    have : specAccuracy env pose = 80 := by
      simp only [specAccuracy, hm, List.map_cons, List.map_nil, List.sum_cons, List.sum_nil,
        List.length_singleton, hd]
      norm_num
    simp [UI.updateAccuracy, App.emit, this]
  · intro m n hm hd0 hd1
    have : specAccuracy env pose = 75 := by
      simp only [specAccuracy, hm, List.map_cons, List.map_nil, List.sum_cons, List.sum_nil,
        List.length_cons, List.length_nil, hd0, hd1]
      norm_num
    simp [UI.updateAccuracy, App.emit, this]

/-- On poses that count no keypoint of inherited name: when no keypoint has
both a score above 0.3 and a name in the table, `calculateAccuracy` changes
nothing. -/
lemma silent_of_own_names (env : Env F) (pose : Pose F) (s : App F)
    (hown : inheritedKeypoints env pose = [])
    (h : ∀ k ∈ pose.keypoints,
      ¬ (k.score > 3 / 10 ∧ k.name ∈ env.referencePoints.map Prod.fst)) :
    calculateAccuracy env pose s = s :=
  calculateAccuracy_of_unmatched env pose s hown ((matchedKeypoints_eq_nil_iff env pose).mpr h)

/-- On poses that count no keypoint of inherited name: when every matched
keypoint has the coordinates of its reference point, `calculateAccuracy`
reports exactly 100.  `Math.sqrt(0)` is `0`. -/
lemma coincident_of_own_names (env : Env F) (pose : Pose F) (s : App F)
    (hown : inheritedKeypoints env pose = [])
    (hsqrt : env.sqrt 0 = 0) (h : matchedKeypoints env pose ≠ [])
    (hco : ∀ m ∈ matchedKeypoints env pose, m.1.x = m.2.x ∧ m.1.y = m.2.y) :
    (calculateAccuracy env pose s).trace = s.trace ++ [Event.updateAccuracy (.val 100)] := by
  rw [calculateAccuracy_of_matched env pose s hown h]
  have hz : ∀ d ∈ (matchedKeypoints env pose).map (euclidean env), d = 0 := by
    intro d hd
    obtain ⟨m, hm, rfl⟩ := List.mem_map.mp hd
    obtain ⟨hx, hy⟩ := hco m hm
    simp [euclidean, hx, hy, hsqrt]
  have hsum : ((matchedKeypoints env pose).map (euclidean env)).sum = 0 :=
    List.sum_eq_zero hz
  have : specAccuracy env pose = 100 := by
    simp [specAccuracy, hsum]
  simp [UI.updateAccuracy, App.emit, this]

/-- The value of the specification lies in `[0, 100]`, and is 0 when the
average distance is 200 or more.  `Math.sqrt` of a non-negative number is
non-negative. -/
lemma specAccuracy_in_range (env : Env F) (pose : Pose F)
    (hsqrt : ∀ x, 0 ≤ x → 0 ≤ env.sqrt x) :
    0 ≤ specAccuracy env pose ∧ specAccuracy env pose ≤ 100
      ∧ (200 ≤ ((matchedKeypoints env pose).map (euclidean env)).sum
            / ((matchedKeypoints env pose).length : F) → specAccuracy env pose = 0) := by
  have hsum := euclidean_sum_nonneg env hsqrt (matchedKeypoints env pose)
  refine ⟨le_max_left _ _, ?_, ?_⟩
  · unfold specAccuracy
    apply max_le (by norm_num)
    have : 0 ≤ ((matchedKeypoints env pose).map (euclidean env)).sum
        / ((matchedKeypoints env pose).length : F) / 2 := by positivity
    linarith
  · intro hfar
    unfold specAccuracy
    apply max_eq_left
    linarith

/-- On poses that count no keypoint of inherited name, every value
`calculateAccuracy` reports lies in `[0, 100]`. -/
lemma in_range_of_own_names (env : Env F) (pose : Pose F) (s : App F)
    (hown : inheritedKeypoints env pose = [])
    (hsqrt : ∀ x, 0 ≤ x → 0 ≤ env.sqrt x) :
    calculateAccuracy env pose s = s
      ∨ ∃ v, 0 ≤ v ∧ v ≤ 100
        ∧ (calculateAccuracy env pose s).trace
          = s.trace ++ [Event.updateAccuracy (.val v)] := by
  by_cases h : matchedKeypoints env pose = []
  · exact Or.inl (calculateAccuracy_of_unmatched env pose s hown h)
  · right
    obtain ⟨h0, h100, _⟩ := specAccuracy_in_range env pose hsqrt
    refine ⟨specAccuracy env pose, h0, h100, ?_⟩
    rw [calculateAccuracy_of_matched env pose s hown h]
    rfl

/-- The pose `poseNoseOff40` has exactly one matched keypoint. -/
lemma matchedKeypoints_poseNoseOff40 :
    matchedKeypoints ratEnv poseNoseOff40 = [(⟨"nose", 360, 120, 9 / 10⟩, ⟨320, 120⟩)] := by
  norm_num [matchedKeypoints, ratEnv, poseNoseOff40, List.lookup, List.filterMap_cons]
  rfl

/-- The pose `poseNoseOff40` counts no keypoint of inherited name. -/
lemma inheritedKeypoints_poseNoseOff40 : inheritedKeypoints ratEnv poseNoseOff40 = [] := by
  simp [inheritedKeypoints, poseNoseOff40, List.filter_cons, readReference, ratEnv,
    List.lookup, objectPrototypeNames]

/-- The distance of the matched keypoint of `poseNoseOff40` is 40. -/
lemma euclidean_poseNoseOff40 :
    euclidean ratEnv ((⟨"nose", 360, 120, 9 / 10⟩, ⟨320, 120⟩) : Keypoint ℚ × RefPoint ℚ)
      = 40 := by
  have h : ((360 : ℚ) - 320) ^ 2 + (120 - 120) ^ 2 = 40 * 40 := by norm_num
  simp only [euclidean, ratEnv, h, Rat.sqrt_eq]
  norm_num

/-- The keypoint `constructor` of `poseNoseAndConstructor` is counted. -/
lemma inheritedKeypoints_poseNoseAndConstructor :
    inheritedKeypoints ratEnv poseNoseAndConstructor = [⟨"constructor", 0, 0, 9 / 10⟩] := by
  have h0 : readReference ratEnv "nose" = Property.own ⟨320, 120⟩ := rfl
  have h1 : readReference ratEnv "constructor" = Property.inherited := rfl
  norm_num [inheritedKeypoints, poseNoseAndConstructor, List.filter_cons, h0, h1]
  exact Property.noConfusion

/-- C1, at a failing input.  In `poseNoseAndConstructor` the set M of the claim
is the keypoint `nose` alone, at distance 40 from its reference, so the value
of the claim is 80.  The code also counts the keypoint `constructor`, a name
that is not a key of the table but that `referencePoints[name]` finds in
`Object.prototype`: it reports `NaN` and the display reads `NaN%`. -/
theorem inherited_name_breaks_average :
    matchedKeypoints ratEnv poseNoseAndConstructor
        = [(⟨"nose", 360, 120, 9 / 10⟩, ⟨320, 120⟩)]
      ∧ euclidean ratEnv
          ((⟨"nose", 360, 120, 9 / 10⟩, ⟨320, 120⟩) : Keypoint ℚ × RefPoint ℚ) = 40
      ∧ specAccuracy ratEnv poseNoseAndConstructor = 80
      ∧ (calculateAccuracy ratEnv poseNoseAndConstructor (App.new ℚ)).trace
        = [Event.updateAccuracy .nan]
      ∧ (calculateAccuracy ratEnv poseNoseAndConstructor (App.new ℚ)).accuracyText
        = "Pose Accuracy: NaN%" := by
  have hm : matchedKeypoints ratEnv poseNoseAndConstructor
      = [(⟨"nose", 360, 120, 9 / 10⟩, ⟨320, 120⟩)] := by
    norm_num [matchedKeypoints, ratEnv, poseNoseAndConstructor, List.lookup,
      List.filterMap_cons]
    rfl
  have hs : specAccuracy ratEnv poseNoseAndConstructor = 80 := by
    simp only [specAccuracy, hm, List.map_cons, List.map_nil, List.sum_cons, List.sum_nil,
      List.length_singleton, euclidean_poseNoseOff40]
    norm_num
  have hc := calculateAccuracy_of_inherited ratEnv poseNoseAndConstructor (App.new ℚ)
    (by simp [inheritedKeypoints_poseNoseAndConstructor])
  refine ⟨hm, euclidean_poseNoseOff40, hs, ?_, ?_⟩
  · rw [hc]
    rfl
  · rw [hc]
    rfl

/-- The keypoint of `poseConstructorOnly` is counted. -/
lemma inheritedKeypoints_poseConstructorOnly :
    inheritedKeypoints ratEnv poseConstructorOnly = [⟨"constructor", 10, 10, 9 / 10⟩] := by
  have h0 : readReference ratEnv "constructor" = Property.inherited := rfl
  norm_num [inheritedKeypoints, poseConstructorOnly, List.filter_cons, h0]

/-- C2, at a failing input.  In `poseConstructorOnly` no keypoint has a name that
is a key of the table, so the claim gives no update.  The code counts the
keypoint `constructor`, calls `updateAccuracy(NaN)` and changes the accuracy
text from the empty text to `Pose Accuracy: NaN%`. -/
theorem inherited_name_breaks_silence :
    (∀ k ∈ poseConstructorOnly.keypoints,
        ¬ (k.score > 3 / 10 ∧ k.name ∈ ratEnv.referencePoints.map Prod.fst))
      ∧ (App.new ℚ).accuracyText = ""
      ∧ (calculateAccuracy ratEnv poseConstructorOnly (App.new ℚ)).trace
        = [Event.updateAccuracy .nan]
      ∧ (calculateAccuracy ratEnv poseConstructorOnly (App.new ℚ)).accuracyText
        = "Pose Accuracy: NaN%" := by
  have hc := calculateAccuracy_of_inherited ratEnv poseConstructorOnly (App.new ℚ)
    (by simp [inheritedKeypoints_poseConstructorOnly])
  refine ⟨?_, rfl, ?_, ?_⟩
  · intro k hk
    simp only [poseConstructorOnly, List.mem_singleton] at hk
    subst hk
    simp [ratEnv]
  · rw [hc]
    rfl
  · rw [hc]
    rfl

/-- C3: removing every keypoint whose score is not strictly above 0.3 (score
exactly 0.3 included) changes neither what `drawPose` does, call for call, nor
what `calculateAccuracy` does, whatever the position of the removed keypoints. -/
theorem low_score_keypoints_ignored (env : Env F) (pose : Pose F) (s : App F) :
    drawPose ⟨pose.keypoints.filter fun k => decide (k.score > 3 / 10)⟩ s = drawPose pose s
      ∧ calculateAccuracy env ⟨pose.keypoints.filter fun k => decide (k.score > 3 / 10)⟩ s
        = calculateAccuracy env pose s := by
  constructor
  · unfold drawPose
    apply foldl_filter_skip
    intro b a ha
    have : ¬ a.score > 3 / 10 := by simpa using ha
    simp [this]
  · unfold calculateAccuracy
    have : (List.filter (fun k => decide (k.score > 3 / 10)) pose.keypoints).foldl
        (scoreKeypoint env) (.val 0, 0)
        = pose.keypoints.foldl (scoreKeypoint env) (.val 0, 0) := by
      apply foldl_filter_skip
      intro b a ha
      have : ¬ a.score > 3 / 10 := by simpa using ha
      unfold scoreKeypoint
      split <;> simp [this]
    simp only [this]

/-- The keypoint `toString` of `poseNoseExactAndToString` is counted. -/
lemma inheritedKeypoints_poseNoseExactAndToString :
    inheritedKeypoints ratEnv poseNoseExactAndToString = [⟨"toString", 0, 0, 9 / 10⟩] := by
  have h0 : readReference ratEnv "nose" = Property.own ⟨320, 120⟩ := rfl
  have h1 : readReference ratEnv "toString" = Property.inherited := rfl
  norm_num [inheritedKeypoints, poseNoseExactAndToString, List.filter_cons, h0, h1]
  exact Property.noConfusion

/-- C4, at a failing input.  In `poseNoseExactAndToString` the one matched
keypoint, `nose`, has the coordinates of its reference point, so the claim
gives 100.  The code also counts the keypoint `toString`, a name that is not a
key of the table, and reports `NaN`. -/
theorem inherited_name_breaks_coincidence :
    matchedKeypoints ratEnv poseNoseExactAndToString
        = [(⟨"nose", 320, 120, 9 / 10⟩, ⟨320, 120⟩)]
      ∧ (∀ m ∈ matchedKeypoints ratEnv poseNoseExactAndToString,
          m.1.x = m.2.x ∧ m.1.y = m.2.y)
      ∧ (calculateAccuracy ratEnv poseNoseExactAndToString (App.new ℚ)).trace
        = [Event.updateAccuracy .nan] := by
  have hm : matchedKeypoints ratEnv poseNoseExactAndToString
      = [(⟨"nose", 320, 120, 9 / 10⟩, ⟨320, 120⟩)] := by
    norm_num [matchedKeypoints, ratEnv, poseNoseExactAndToString, List.lookup,
      List.filterMap_cons]
    rfl
  have hc := calculateAccuracy_of_inherited ratEnv poseNoseExactAndToString (App.new ℚ)
    (by simp [inheritedKeypoints_poseNoseExactAndToString])
  refine ⟨hm, ?_, ?_⟩
  · intro m hmem
    rw [hm, List.mem_singleton] at hmem
    subst hmem
    exact ⟨rfl, rfl⟩
  · rw [hc]
    rfl

/-- The keypoint of `poseValueOfOnly` is counted. -/
lemma inheritedKeypoints_poseValueOfOnly :
    inheritedKeypoints ratEnv poseValueOfOnly = [⟨"valueOf", 5, 5, 9 / 10⟩] := by
  have h0 : readReference ratEnv "valueOf" = Property.inherited := rfl
  norm_num [inheritedKeypoints, poseValueOfOnly, List.filter_cons, h0]

/-- C5, at a failing input.  For `poseValueOfOnly`, whose keypoint has the name
`valueOf` found in `Object.prototype`, the code reports `NaN`: the value
reported is no number of the interval `[0, 100]`. -/
theorem inherited_name_breaks_range :
    (calculateAccuracy ratEnv poseValueOfOnly (App.new ℚ)).trace
        = [Event.updateAccuracy .nan]
      ∧ ¬ ∃ v : ℚ, 0 ≤ v ∧ v ≤ 100
          ∧ (calculateAccuracy ratEnv poseValueOfOnly (App.new ℚ)).trace
            = [Event.updateAccuracy (.val v)] := by
  have hc := calculateAccuracy_of_inherited ratEnv poseValueOfOnly (App.new ℚ)
    (by simp [inheritedKeypoints_poseValueOfOnly])
  have ht : (calculateAccuracy ratEnv poseValueOfOnly (App.new ℚ)).trace
      = [Event.updateAccuracy .nan] := by
    rw [hc]
    rfl
  refine ⟨ht, ?_⟩
  rintro ⟨v, _, _, hv⟩
  rw [ht] at hv
  simp at hv

end ScoringClaims


/-! ## The controller: camera errors, failures and stops -/

section TaskFacts

/-- A call with a fresh identifier, entered last, is the one found under it. -/
lemma lookup_append_fresh (ts : List (Nat × Cont)) (n : Nat) (c : Cont)
    (h : ∀ t ∈ ts, t.1 ≠ n) : (ts ++ [(n, c)]).lookup n = some c := by
  induction ts with
  | nil => simp [List.lookup]
  | cons t ts ih =>
    obtain ⟨i, d⟩ := t
    have hi : i ≠ n := h (i, d) (List.mem_cons_self _ _)
    have hb : (n == i) = false := by simpa using fun hn => hi hn.symm
    simp only [List.cons_append, List.lookup, hb]
    exact ih fun t ht => h t (List.mem_cons_of_mem _ ht)

/-- Moving the call with a fresh identifier to another await touches no other call. -/
lemma map_append_fresh (ts : List (Nat × Cont)) (n : Nat) (c d : Cont)
    (h : ∀ t ∈ ts, t.1 ≠ n) :
    (ts ++ [(n, c)]).map (fun t => if t.1 = n then (n, d) else t) = ts ++ [(n, d)] := by
  rw [List.map_append]
  congr 1
  · conv_rhs => rw [← List.map_id ts]
    apply List.map_congr_left
    intro t ht
    simp [h t ht]
  · simp

/-- Ending the call with a fresh identifier leaves the other calls. -/
lemma filter_append_fresh (ts : List (Nat × Cont)) (n : Nat) (c : Cont)
    (h : ∀ t ∈ ts, t.1 ≠ n) :
    (ts ++ [(n, c)]).filter (fun t => decide (t.1 ≠ n)) = ts := by
  rw [List.filter_append]
  have : ts.filter (fun t => decide (t.1 ≠ n)) = ts :=
    List.filter_eq_self.mpr fun t ht => by simpa using h t ht
  rw [this]
  simp

/-- A call that has returned is no longer pending. -/
lemma lookup_filter_ne (ts : List (Nat × Cont)) (n : Nat) :
    (ts.filter (fun t => decide (t.1 ≠ n))).lookup n = none := by
  rw [List.lookup_eq_none_iff]
  intro p hp
  have := (List.mem_filter.mp hp).2
  simp only [decide_eq_true_eq] at this
  simpa using fun hn => this hn.symm

/-- Moving calls to an await other than an inference call does not add
outstanding inference calls. -/
lemma countP_suspend_le (ts : List (Nat × Cont)) (n : Nat) (c : Cont)
    (hc : c.isEstimate = false) :
    (ts.map fun t => if t.1 = n then (n, c) else t).countP (fun t => t.2.isEstimate)
      ≤ ts.countP fun t => t.2.isEstimate := by
  induction ts with
  | nil => simp
  | cons t ts ih =>
    by_cases ht : t.1 = n
    · simp only [List.map_cons, ht, if_true, List.countP_cons, hc]
      simp only [Bool.false_eq_true, if_false]
      omega
    · simp only [List.map_cons, ht, if_false, List.countP_cons]
      omega

/-- Moving a call away from its inference await retires one outstanding inference call. -/
lemma countP_suspend_lt (ts : List (Nat × Cont)) (n : Nat) (c : Cont) (d : Detector)
    (hc : c.isEstimate = false) (h : ts.lookup n = some (Cont.estimate d)) :
    (ts.map fun t => if t.1 = n then (n, c) else t).countP (fun t => t.2.isEstimate) + 1
      ≤ ts.countP fun t => t.2.isEstimate := by
  induction ts with
  | nil => simp at h
  | cons t ts ih =>
    obtain ⟨i, x⟩ := t
    by_cases hi : i = n
    · subst hi
      simp only [List.lookup_cons, beq_self_eq_true, Option.some.injEq] at h
      subst h
      have := countP_suspend_le ts i c hc
      have hest : (Cont.estimate d).isEstimate = true := rfl
      simp only [List.map_cons, if_true, List.countP_cons, hc, hest]
      simp only [if_true, Bool.false_eq_true, if_false]
      omega
    · have hb : (n == i) = false := by simpa using fun hn => hi hn.symm
      simp only [List.lookup_cons, hb] at h
      have := ih h
      simp only [List.map_cons, hi, if_false, List.countP_cons]
      omega

/-- Ending a call does not add outstanding inference calls. -/
lemma countP_finish_le (ts : List (Nat × Cont)) (n : Nat) :
    (ts.filter fun t => decide (t.1 ≠ n)).countP (fun t => t.2.isEstimate)
      ≤ ts.countP fun t => t.2.isEstimate := by
  rw [List.countP_filter]
  apply List.countP_mono_left
  intro t _ ht
  simp only [Bool.and_eq_true] at ht
  exact ht.1

end TaskFacts

section ReferenceFacts

variable {F : Type}

/-- The method `drawReferencePoints` appends its calls and changes nothing else. -/
lemma drawReferencePoints_eq (env : Env F) (s : App F) :
    drawReferencePoints env s = { s with trace := s.trace ++ referenceEvents env } := by
  unfold drawReferencePoints referenceEvents
  generalize env.referencePoints = refs
  induction refs generalizing s with
  | nil => simp
  | cons r rs ih =>
    rw [List.foldl_cons, ih]
    simp [Canvas.drawKeypoint, Canvas.drawText, App.emit]

end ReferenceFacts

section DrawFacts

variable {F : Type} [LinearOrderedField F]

/-- The method `drawPose` appends its calls and changes nothing else. -/
lemma drawPose_eq (pose : Pose F) (s : App F) :
    drawPose pose s = { s with trace := s.trace ++ drawPoseEvents pose } := by
  unfold drawPose drawPoseEvents
  generalize pose.keypoints = kps
  induction kps generalizing s with
  | nil => simp
  | cons k ks ih =>
    rw [List.foldl_cons, ih]
    by_cases hs : k.score > 3 / 10
    · simp [hs, Canvas.drawKeypoint, App.emit, List.filter_cons]
    · simp [hs, List.filter_cons]

/-- The method `calculateAccuracy` appends its calls and changes only the accuracy text. -/
lemma calculateAccuracy_trace (env : Env F) (pose : Pose F) (s : App F) :
    (calculateAccuracy env pose s).trace = s.trace ++ accuracyEvents env pose
      ∧ (calculateAccuracy env pose s).isRunning = s.isRunning
      ∧ (calculateAccuracy env pose s).tasks = s.tasks := by
  rw [calculateAccuracy_eq]
  unfold accuracyEvents
  split_ifs
  · simp
  · simp [UI.updateAccuracy, App.emit]

/-- An iteration whose inference call succeeded makes the calls `frameEvents`,
keeps `isRunning` and leaves a frame callback pending. -/
lemma detectPoseResume_ok (env : Env F) (id : Nat) (detector : Detector)
    (poses : List (Pose F)) (s : App F) :
    (detectPoseResume env id detector (.ok poses) s).trace = s.trace ++ frameEvents env poses
      ∧ (detectPoseResume env id detector (.ok poses) s).isRunning = s.isRunning
      ∧ (detectPoseResume env id detector (.ok poses) s).tasks
        = s.tasks.map fun t => if t.1 = id then (id, Cont.frame detector) else t := by
  cases poses with
  | nil => simp [detectPoseResume, frameEvents, Canvas.clear, App.emit, App.suspend]
  | cons pose rest =>
    obtain ⟨h1, h2, h3⟩ := calculateAccuracy_trace env pose
      (drawReferencePoints env (drawPose pose (Canvas.clear s)))
    simp only [detectPoseResume, frameEvents, App.emit, App.suspend, h1, h2, h3]
    simp [drawReferencePoints_eq, drawPose_eq, Canvas.clear, App.emit]

end DrawFacts

section ControllerFacts

variable {F : Type} [LinearOrderedField F]

/-- Every call of a loop iteration after its inference call is a frame effect. -/
lemma frameEvents_filter (env : Env F) (poses : List (Pose F)) :
    (frameEvents env poses).filter Event.isFrameEffect = frameEvents env poses := by
  rw [List.filter_eq_self]
  intro e he
  cases poses with
  | nil =>
    simp only [frameEvents, List.append_nil, List.cons_append, List.nil_append, List.mem_cons,
      List.mem_singleton, List.not_mem_nil, or_false] at he
    rcases he with rfl | rfl <;> rfl
  | cons pose rest =>
    simp only [frameEvents, drawPoseEvents, referenceEvents, accuracyEvents, List.mem_append,
      List.mem_map, List.mem_flatMap, List.mem_cons, List.mem_singleton, List.not_mem_nil,
      or_false] at he
    rcases he with (rfl | ⟨⟨k, _, rfl⟩ | ⟨r, _, rfl | rfl⟩⟩ | he) | rfl
    · rfl
    · rfl
    · rfl
    · rfl
    · split_ifs at he
      · simp at he
      · rw [List.mem_singleton] at he
        subst he
        rfl
    · rfl

/-- No call of a loop iteration after its inference call is an inference call. -/
lemma estimatePoses_not_mem_frameEvents (env : Env F) (poses : List (Pose F)) (d : Detector) :
    Event.estimatePoses d ∉ frameEvents env poses := by
  intro h
  have := (List.filter_eq_self.mp (frameEvents_filter env poses)) _ h
  simp [Event.isFrameEffect] at this

/-- While `isRunning` is false, an input that does not complete a setup keeps
it false and makes no `estimatePoses` call; the frame effects it causes are
those of the inference results it delivers, each retiring an outstanding call. -/
lemma step_stopped (env : Env F) (s : App F) (i : Input F)
    (hs : s.isRunning = false) (hi : i.completesSetup = false) :
    (step env s i).isRunning = false
      ∧ ∃ (new : List (Event F)) (frames : List (List (Pose F))),
          (step env s i).trace = s.trace ++ new
        ∧ (∀ d, Event.estimatePoses d ∉ new)
        ∧ new.filter Event.isFrameEffect = frames.flatMap (frameEvents env)
        ∧ frames.length + (step env s i).outstanding ≤ s.outstanding := by
  have hcatch : ∀ (e : JsError) (id : Nat),
      (initCatch e id s).isRunning = false
        ∧ ∃ (new : List (Event F)) (frames : List (List (Pose F))),
          (initCatch e id s).trace = s.trace ++ new
          ∧ (∀ d, Event.estimatePoses d ∉ new)
          ∧ new.filter Event.isFrameEffect = frames.flatMap (frameEvents env)
          ∧ frames.length + (initCatch e id s).outstanding ≤ s.outstanding := by
    intro e id
    refine ⟨by simp [initCatch, App.finish, App.emit, UI.showError, hs],
      [Event.showError e.message, Event.consoleError "Error initializing:" e.message], [],
      by simp [initCatch, App.finish, App.emit, UI.showError], by simp,
      by simp [List.filter_cons, Event.isFrameEffect], ?_⟩
    have := countP_finish_le s.tasks id
    simpa [initCatch, App.finish, App.emit, UI.showError, App.outstanding] using this
  have hmove : ∀ (e : Event F) (id : Nat) (c : Cont), c.isEstimate = false →
      (∀ d, e ≠ Event.estimatePoses d) → e.isFrameEffect = false →
      ((s.emit e).suspend id c).isRunning = false
        ∧ ∃ (new : List (Event F)) (frames : List (List (Pose F))),
          ((s.emit e).suspend id c).trace = s.trace ++ new
          ∧ (∀ d, Event.estimatePoses d ∉ new)
          ∧ new.filter Event.isFrameEffect = frames.flatMap (frameEvents env)
          ∧ frames.length + ((s.emit e).suspend id c).outstanding ≤ s.outstanding := by
    intro e id c hc he hcl
    refine ⟨by simp [App.suspend, App.emit, hs], [e], [], by simp [App.suspend, App.emit],
      by simpa using fun d h => he d h.symm, by simp [List.filter_cons, hcl], ?_⟩
    have := countP_suspend_le s.tasks id c hc
    simpa [App.suspend, App.emit, App.outstanding] using this
  have hsame : s.isRunning = false
      ∧ ∃ (new : List (Event F)) (frames : List (List (Pose F))),
          s.trace = s.trace ++ new
        ∧ (∀ d, Event.estimatePoses d ∉ new)
        ∧ new.filter Event.isFrameEffect = frames.flatMap (frameEvents env)
        ∧ frames.length + s.outstanding ≤ s.outstanding :=
    ⟨hs, [], [], by simp, by simp, by simp, by simp⟩
  cases i with
  | init =>
    refine ⟨by simp [step, App.emit, hs], [Event.tfReady], [], by simp [step, App.emit],
      by simp, by simp [List.filter_cons, Event.isFrameEffect], ?_⟩
    simp [step, App.emit, App.outstanding, Cont.isEstimate]
  | tfReadyDone id outcome =>
    simp only [step]
    split_ifs
    · cases outcome with
      | ok _ => exact hmove _ id _ rfl (by simp) rfl
      | error e => exact hcatch e id
    · exact hsame
  | setBackendDone id outcome =>
    simp only [step]
    split_ifs
    · cases outcome with
      | ok _ => exact hmove _ id _ rfl (by simp) rfl
      | error e => exact hcatch e id
    · exact hsame
  | getUserMediaDone id outcome =>
    simp only [step]
    split_ifs
    · cases hr : requestCameraPermission outcome with
      | ok stream =>
        refine ⟨by simp [App.suspend, hs], [], [], by simp [App.suspend], by simp, by simp, ?_⟩
        have := countP_suspend_le s.tasks id Cont.metadata rfl
        simpa [App.suspend, App.outstanding] using this
      | error e => exact hcatch e id
    · exact hsame
  | loadedmetadata =>
    simp only [step]
    split
    · split_ifs
      · exact hmove _ _ _ rfl (by simp) rfl
      · exact hsame
    · exact hsame
  | createDetectorDone id outcome =>
    cases outcome with
    | ok d => simp [Input.completesSetup] at hi
    | error e =>
      simp only [step, initializePoseDetector]
      split_ifs
      · exact hcatch _ id
      · exact hsame
  | estimatePosesDone id outcome =>
    simp only [step]
    split
    · rename_i detector hw
      cases outcome with
      | ok poses =>
        obtain ⟨h1, h2, h3⟩ := detectPoseResume_ok env id detector poses s
        refine ⟨by rw [h2, hs], frameEvents env poses, [poses], h1,
          estimatePoses_not_mem_frameEvents env poses, by simp [frameEvents_filter], ?_⟩
        have := countP_suspend_lt s.tasks id (Cont.frame detector) detector rfl hw
        simp only [App.outstanding, h3, List.length_singleton]
        omega
      | error e =>
        refine ⟨by simp [detectPoseResume, App.finish],
          [Event.showError "Error detecting pose. Please refresh the page."], [],
          by simp [detectPoseResume, App.finish, UI.showError, App.emit], by simp,
          by simp [List.filter_cons, Event.isFrameEffect], ?_⟩
        have := countP_finish_le s.tasks id
        simpa [detectPoseResume, App.finish, UI.showError, App.emit, App.outstanding]
          using this
    · exact hsame
  | animationFrame id =>
    simp only [step]
    split
    · refine ⟨by simp [detectPose, hs, App.finish], [], [],
        by simp [detectPose, hs, App.finish], by simp, by simp, ?_⟩
      have := countP_finish_le s.tasks id
      simpa [detectPose, hs, App.finish, App.outstanding] using this
    · exact hsame
  | stop =>
    exact ⟨rfl, [], [], by simp [step], by simp, by simp, by simp [step, App.outstanding]⟩

/-- The same along a run: after `isRunning` became false and while no setup
completes, no inference call is made, and the frame effects are those of at
most as many inference results as calls were outstanding. -/
lemma run_stopped (env : Env F) (inputs : List (Input F)) (s : App F)
    (hs : s.isRunning = false) (hi : ∀ i ∈ inputs, i.completesSetup = false) :
    (run env s inputs).isRunning = false
      ∧ ∃ (new : List (Event F)) (frames : List (List (Pose F))),
          (run env s inputs).trace = s.trace ++ new
        ∧ (∀ d, Event.estimatePoses d ∉ new)
        ∧ new.filter Event.isFrameEffect = frames.flatMap (frameEvents env)
        ∧ frames.length + (run env s inputs).outstanding ≤ s.outstanding := by
  induction inputs generalizing s with
  | nil => exact ⟨hs, [], [], by simp [run], by simp, by simp, by simp [run]⟩
  | cons i rest ih =>
    obtain ⟨h1, new1, fr1, ht1, hn1, hf1, hc1⟩ :=
      step_stopped env s i hs (hi i (List.mem_cons_self _ _))
    obtain ⟨h2, new2, fr2, ht2, hn2, hf2, hc2⟩ :=
      ih (step env s i) h1 fun j hj => hi j (List.mem_cons_of_mem _ hj)
    have hrun : run env s (i :: rest) = run env (step env s i) rest := rfl
    rw [hrun]
    refine ⟨h2, new1 ++ new2, fr1 ++ fr2, by rw [ht2, ht1, List.append_assoc], ?_, ?_, ?_⟩
    · intro d hd
      rcases List.mem_append.mp hd with h | h
      · exact hn1 d h
      · exact hn2 d h
    · rw [List.filter_append, hf1, hf2, List.flatMap_append]
    · rw [List.length_append]
      omega

end ControllerFacts

section ControllerClaims

variable {F : Type} [LinearOrderedField F]

/-- C6: when `getUserMedia` rejects with an error named `NotAllowedError`, the
`init` call (entered with the session not running, its earlier awaits having
succeeded) ends with `isRunning` false and the error banner shown with exactly
the permission-denied text; the only calls it made are `tf.ready`,
`tf.setBackend`, `getUserMedia`, `showError` and `console.error`, so that
`initializePoseDetector`, `startDetection`, `estimatePoses` and
`requestAnimationFrame` are not called, and it leaves nothing pending. -/
theorem init_permission_denied (env : Env F) (s : App F) (error : JsError)
    (hfresh : ∀ t ∈ s.tasks, t.1 ≠ s.nextId) (hidle : s.isRunning = false)
    (hname : error.name = "NotAllowedError") :
    (run env s [.init, .tfReadyDone s.nextId (.ok ()), .setBackendDone s.nextId (.ok ()),
        .getUserMediaDone s.nextId (.error error)]).isRunning = false
      ∧ (run env s [.init, .tfReadyDone s.nextId (.ok ()), .setBackendDone s.nextId (.ok ()),
        .getUserMediaDone s.nextId (.error error)]).errorText
        = "Camera permission denied. Please allow camera access to use the Yoga Assistant."
      ∧ (run env s [.init, .tfReadyDone s.nextId (.ok ()), .setBackendDone s.nextId (.ok ()),
        .getUserMediaDone s.nextId (.error error)]).errorDisplay = "block"
      ∧ (run env s [.init, .tfReadyDone s.nextId (.ok ()), .setBackendDone s.nextId (.ok ()),
        .getUserMediaDone s.nextId (.error error)]).trace
        = s.trace ++ [Event.tfReady, Event.setBackend "webgl",
            Event.getUserMedia 640 480 "user",
            Event.showError
              "Camera permission denied. Please allow camera access to use the Yoga Assistant.",
            Event.consoleError "Error initializing:"
              "Camera permission denied. Please allow camera access to use the Yoga Assistant."]
      ∧ (run env s [.init, .tfReadyDone s.nextId (.ok ()), .setBackendDone s.nextId (.ok ()),
        .getUserMediaDone s.nextId (.error error)]).tasks = s.tasks := by
  simp [run, step, App.awaiting, App.emit, App.suspend, App.finish, initCatch, UI.showError,
    requestCameraPermission, newError, hname, hidle, lookup_append_fresh _ _ _ hfresh,
    map_append_fresh _ _ _ _ hfresh, filter_append_fresh _ _ _ hfresh]
  exact fun a b hab => hfresh (a, b) hab

/-- Witness for C6: a fresh assistant whose camera request is denied. -/
theorem init_permission_denied_witness :
    (∀ t ∈ (App.new ℚ).tasks, t.1 ≠ (App.new ℚ).nextId)
      ∧ (App.new ℚ).isRunning = false
      ∧ (⟨"NotAllowedError", "Permission denied"⟩ : JsError).name = "NotAllowedError"
      ∧ (run ratEnv (App.new ℚ) [.init, .tfReadyDone (App.new ℚ).nextId (.ok ()),
          .setBackendDone (App.new ℚ).nextId (.ok ()),
          .getUserMediaDone (App.new ℚ).nextId
            (.error ⟨"NotAllowedError", "Permission denied"⟩)]).isRunning = false :=
  ⟨by decide, rfl, rfl,
    (init_permission_denied ratEnv (App.new ℚ) ⟨"NotAllowedError", "Permission denied"⟩
      (by decide) rfl rfl).1⟩

end ControllerClaims

section PermissionClaims

variable {F : Type} [LinearOrderedField F]

/-- C7: `requestCameraPermission` returns the stream unchanged on success; on
failure it throws an error whose message is the permission-denied text for the
name `NotAllowedError`, the no-camera text for the name `NotFoundError`, and
`Camera error: ` followed by the message of the failure for any other name.
The messages thrown for one failure of each of the three classes are pairwise
different, and the message thrown is the text `init` puts in the error banner. -/
theorem requestCameraPermission_messages (env : Env F) :
    (∀ stream, requestCameraPermission (.ok stream) = .ok stream)
      ∧ (∀ e : JsError, e.name = "NotAllowedError" →
          requestCameraPermission (.error e) = .error
            { name := "Error",
              message := "Camera permission denied. Please allow camera access to use the Yoga Assistant." })
      ∧ (∀ e : JsError, e.name = "NotFoundError" →
          requestCameraPermission (.error e) = .error
            { name := "Error",
              message := "No camera found. Please connect a camera to use the Yoga Assistant." })
      ∧ (∀ e : JsError, e.name ≠ "NotAllowedError" → e.name ≠ "NotFoundError" →
          requestCameraPermission (.error e)
            = .error { name := "Error", message := "Camera error: " ++ e.message })
      ∧ (∀ denied missing other thrownDenied thrownMissing thrownOther : JsError,
          denied.name = "NotAllowedError" → missing.name = "NotFoundError" →
          other.name ≠ "NotAllowedError" → other.name ≠ "NotFoundError" →
          requestCameraPermission (.error denied) = .error thrownDenied →
          requestCameraPermission (.error missing) = .error thrownMissing →
          requestCameraPermission (.error other) = .error thrownOther →
          thrownDenied.message ≠ thrownMissing.message
            ∧ thrownDenied.message ≠ thrownOther.message
            ∧ thrownMissing.message ≠ thrownOther.message)
      ∧ (∀ (s : App F) (id : Nat) (e thrown : JsError),
          s.awaiting id = some Cont.camera →
          requestCameraPermission (.error e) = .error thrown →
          (step env s (.getUserMediaDone id (.error e))).errorText = thrown.message
            ∧ (step env s (.getUserMediaDone id (.error e))).errorDisplay = "block") := by
  have hdenied : ∀ e : JsError, e.name = "NotAllowedError" →
      requestCameraPermission (.error e) = .error
        { name := "Error",
          message := "Camera permission denied. Please allow camera access to use the Yoga Assistant." } := by
    intro e he
    simp [requestCameraPermission, newError, he]
  have hmissing : ∀ e : JsError, e.name = "NotFoundError" →
      requestCameraPermission (.error e) = .error
        { name := "Error",
          message := "No camera found. Please connect a camera to use the Yoga Assistant." } := by
    intro e he
    simp [requestCameraPermission, newError, he]
  have hother : ∀ e : JsError, e.name ≠ "NotAllowedError" → e.name ≠ "NotFoundError" →
      requestCameraPermission (.error e)
        = .error { name := "Error", message := "Camera error: " ++ e.message } := by
    intro e h1 h2
    simp [requestCameraPermission, newError, h1, h2]
  refine ⟨fun _ => rfl, hdenied, hmissing, hother, ?_, ?_⟩
  · intro denied missing other td tm tx hd hm ho1 ho2 ed em eo
    rw [hdenied denied hd] at ed
    rw [hmissing missing hm] at em
    rw [hother other ho1 ho2] at eo
    cases ed
    cases em
    cases eo
    refine ⟨by decide, ?_, ?_⟩
    · intro h
      have := congrArg String.data h
      simp at this
    · intro h
      have := congrArg String.data h
      simp at this
  · intro s id e thrown hwait hthrown
    simp [step, hwait, hthrown, initCatch, App.finish, App.emit, UI.showError]

/-- Witness for C7: a failure of the class `NotFoundError` and one of another
class, and the banner after the first while an `init` call awaits the camera. -/
theorem requestCameraPermission_messages_witness :
    requestCameraPermission (.error ⟨"NotFoundError", "Requested device not found"⟩)
        = .error
          { name := "Error",
            message := "No camera found. Please connect a camera to use the Yoga Assistant." }
      ∧ requestCameraPermission (.error ⟨"NotReadableError", "Device in use"⟩)
        = .error { name := "Error", message := "Camera error: " ++ "Device in use" }
      ∧ (step ratEnv awaitingCameraApp
          (.getUserMediaDone 0 (.error ⟨"NotFoundError", "Requested device not found"⟩))).errorText
        = "No camera found. Please connect a camera to use the Yoga Assistant." :=
  ⟨(requestCameraPermission_messages ratEnv).2.2.1
      ⟨"NotFoundError", "Requested device not found"⟩ rfl,
    (requestCameraPermission_messages ratEnv).2.2.2.1 ⟨"NotReadableError", "Device in use"⟩
      (by decide) (by decide),
    ((requestCameraPermission_messages ratEnv).2.2.2.2.2 awaitingCameraApp 0
      ⟨"NotFoundError", "Requested device not found"⟩ _ (by decide)
      ((requestCameraPermission_messages ratEnv).2.2.1
        ⟨"NotFoundError", "Requested device not found"⟩ rfl)).1⟩

end PermissionClaims

section LoopClaims

variable {F : Type} [LinearOrderedField F]

/-- C8: when the `estimatePoses` call of a loop iteration fails, that iteration
makes one call, `showError` with the text `Error detecting pose. Please refresh
the page.`: it does not clear or draw, does not update the accuracy and does
not call `requestAnimationFrame`.  It sets `isRunning` to false and leaves the
loop with nothing pending.  From then on, as long as no `init` call completes
a setup, no `estimatePoses` call is made. -/
theorem inference_failure_is_terminal (env : Env F) (s : App F) (id : Nat)
    (detector : Detector) (error : JsError)
    (hwait : s.awaiting id = some (Cont.estimate detector)) :
    (step env s (.estimatePosesDone id (.error error))).trace
        = s.trace ++ [Event.showError "Error detecting pose. Please refresh the page."]
      ∧ (step env s (.estimatePosesDone id (.error error))).errorText
        = "Error detecting pose. Please refresh the page."
      ∧ (step env s (.estimatePosesDone id (.error error))).errorDisplay = "block"
      ∧ (step env s (.estimatePosesDone id (.error error))).isRunning = false
      ∧ (step env s (.estimatePosesDone id (.error error))).accuracyText = s.accuracyText
      ∧ (step env s (.estimatePosesDone id (.error error))).awaiting id = none
      ∧ (∀ t ∈ (step env s (.estimatePosesDone id (.error error))).tasks, t ∈ s.tasks)
      ∧ ∀ inputs : List (Input F), (∀ i ∈ inputs, i.completesSetup = false) →
          ∃ new, (run env (step env s (.estimatePosesDone id (.error error))) inputs).trace
              = (step env s (.estimatePosesDone id (.error error))).trace ++ new
            ∧ ∀ d, Event.estimatePoses d ∉ new := by
  have hstep : step env s (.estimatePosesDone id (.error error))
      = ({ UI.showError "Error detecting pose. Please refresh the page." s with
            isRunning := false }).finish id := by
    simp only [step, hwait, detectPoseResume]
  rw [hstep]
  refine ⟨by simp [App.finish, UI.showError, App.emit], by simp [App.finish, UI.showError],
    by simp [App.finish, UI.showError], by simp [App.finish],
    by simp [App.finish, UI.showError, App.emit], ?_, ?_, ?_⟩
  · exact lookup_filter_ne s.tasks id
  · intro t ht
    exact (List.mem_filter.mp ht).1
  · intro inputs hi
    obtain ⟨_, new, _, ht, hn, _⟩ := run_stopped env inputs
      (({ UI.showError "Error detecting pose. Please refresh the page." s with
            isRunning := false }).finish id) (by simp [App.finish]) hi
    exact ⟨new, ht, hn⟩

/-- Witness for C8: the first inference call of `runningApp` fails. -/
theorem inference_failure_is_terminal_witness :
    runningApp.awaiting 0 = some (Cont.estimate ⟨7⟩)
      ∧ (step ratEnv runningApp (.estimatePosesDone 0 (.error ⟨"Error", "lost"⟩))).trace
        = runningApp.trace ++ [Event.showError "Error detecting pose. Please refresh the page."] :=
  ⟨by decide,
    (inference_failure_is_terminal ratEnv runningApp 0 ⟨7⟩ ⟨"Error", "lost"⟩
      (by decide)).1⟩

/-- An inference result is processed whatever the value of `isRunning`: the
continuation of `detectPose` does not read the flag. -/
lemma step_estimate_ok (env : Env F) (s : App F) (id : Nat) (detector : Detector)
    (poses : List (Pose F)) (hwait : s.awaiting id = some (Cont.estimate detector)) :
    (step env s (.estimatePosesDone id (.ok poses))).trace = s.trace ++ frameEvents env poses := by
  simp only [step, hwait]
  exact (detectPoseResume_ok env id detector poses s).1

/-- The calls of an iteration that receives `poseNoseOff40`. -/
lemma frameEvents_poseNoseOff40 :
    frameEvents ratEnv [poseNoseOff40]
      = [Event.clear, Event.drawKeypoint 360 120 "blue" 5, Event.drawKeypoint 0 0 "blue" 5,
          Event.drawKeypoint 320 120 "green" 5, Event.drawText "nose" 320 120 "green",
          Event.drawKeypoint 200 300 "green" 5, Event.drawText "left_wrist" 200 300 "green",
          Event.updateAccuracy (.val 80), Event.requestAnimationFrame] := by
  have hacc : specAccuracy ratEnv poseNoseOff40 = 80 := by
    simp only [specAccuracy, matchedKeypoints_poseNoseOff40, List.map_cons, List.map_nil,
      List.sum_cons, List.sum_nil, List.length_singleton, euclidean_poseNoseOff40]
    norm_num
  have hdraw : drawPoseEvents poseNoseOff40
      = [Event.drawKeypoint 360 120 "blue" 5, Event.drawKeypoint 0 0 "blue" 5] := by
    norm_num [drawPoseEvents, poseNoseOff40, List.filter_cons]
  have hupd : accuracyEvents ratEnv poseNoseOff40 = [Event.updateAccuracy (.val 80)] := by
    simp [accuracyEvents, reportedAccuracy, matchedKeypoints_poseNoseOff40,
      inheritedKeypoints_poseNoseOff40, hacc]
  have href : referenceEvents ratEnv
      = [Event.drawKeypoint 320 120 "green" 5, Event.drawText "nose" 320 120 "green",
          Event.drawKeypoint 200 300 "green" 5, Event.drawText "left_wrist" 200 300 "green"] := by
    simp [referenceEvents, ratEnv]
  simp [frameEvents, hdraw, hupd, href]

/-- C9, as stated, fails: the session is stopped while the first inference
call is outstanding, the call then completes, and the iteration still clears
the canvas, draws, updates the accuracy and calls `requestAnimationFrame`. -/
theorem stop_does_not_discard_outstanding_result :
    (step ratEnv runningApp .stop).isRunning = false
      ∧ (step ratEnv runningApp .stop).awaiting 0 = some (Cont.estimate ⟨7⟩)
      ∧ (run ratEnv (step ratEnv runningApp .stop)
          [.estimatePosesDone 0 (.ok [poseNoseOff40])]).trace
        = (step ratEnv runningApp .stop).trace
          ++ [Event.clear, Event.drawKeypoint 360 120 "blue" 5, Event.drawKeypoint 0 0 "blue" 5,
            Event.drawKeypoint 320 120 "green" 5, Event.drawText "nose" 320 120 "green",
            Event.drawKeypoint 200 300 "green" 5, Event.drawText "left_wrist" 200 300 "green",
            Event.updateAccuracy (.val 80), Event.requestAnimationFrame] := by
  refine ⟨rfl, by decide, ?_⟩
  have := step_estimate_ok ratEnv (step ratEnv runningApp .stop) 0 ⟨7⟩ [poseNoseOff40]
    (by decide)
  rw [frameEvents_poseNoseOff40] at this
  exact this

/-- C9, amended: a stop takes effect where the next iteration starts.  After
the stop, while no `init` call completes a setup, `isRunning` stays false and
no `estimatePoses` call is made; the clear, draw, accuracy and scheduling
calls made are exactly those of the iterations that receive an inference
result, at most one per call outstanding at the stop; a frame callback that
fires makes no call; and an inference result that arrives is processed as in
a running session. -/
theorem stop_takes_effect_at_next_iteration (env : Env F) (s : App F)
    (inputs : List (Input F)) (hi : ∀ i ∈ inputs, i.completesSetup = false) :
    (run env (step env s .stop) inputs).isRunning = false
      ∧ (∃ (new : List (Event F)) (frames : List (List (Pose F))),
          (run env (step env s .stop) inputs).trace = s.trace ++ new
            ∧ (∀ d, Event.estimatePoses d ∉ new)
            ∧ new.filter Event.isFrameEffect = frames.flatMap (frameEvents env)
            ∧ frames.length ≤ s.outstanding)
      ∧ (∀ id, (step env (step env s .stop) (.animationFrame id)).trace = s.trace)
      ∧ (∀ id detector poses, s.awaiting id = some (Cont.estimate detector) →
          (step env (step env s .stop) (.estimatePosesDone id (.ok poses))).trace
            = s.trace ++ frameEvents env poses) := by
  have hstop : (step env s .stop).isRunning = false := rfl
  obtain ⟨h1, new, frames, ht, hn, hf, hc⟩ := run_stopped env inputs (step env s .stop) hstop hi
  refine ⟨h1, ⟨new, frames, ht, hn, hf, ?_⟩, ?_, ?_⟩
  · have : (step env s .stop).outstanding = s.outstanding := rfl
    omega
  · intro id
    simp only [step, App.awaiting]
    split
    · simp [detectPose, App.finish]
    · rfl
  · intro id detector poses hwait
    exact step_estimate_ok env (step env s .stop) id detector poses hwait

/-- Witness for C9 amended: the inputs after the stop are the arrival of the
outstanding result and the frame callback it registered. -/
theorem stop_takes_effect_at_next_iteration_witness :
    (∀ i ∈ [Input.estimatePosesDone 0 (.ok [poseNoseOff40]), Input.animationFrame 0],
        i.completesSetup = false)
      ∧ (run ratEnv (step ratEnv runningApp .stop)
          [Input.estimatePosesDone 0 (.ok [poseNoseOff40]), Input.animationFrame 0]).isRunning
        = false :=
  ⟨by simp [Input.completesSetup],
    (stop_takes_effect_at_next_iteration ratEnv runningApp
      [Input.estimatePosesDone 0 (.ok [poseNoseOff40]), Input.animationFrame 0]
      (by simp [Input.completesSetup])).1⟩

/-- C10, as stated, fails: a second `init` call made while the first awaits the
camera is accepted, and its own camera request is issued while the first call
still awaits the camera. -/
theorem second_init_interleaves :
    awaitingCameraApp.tasks = [(0, Cont.camera)]
      ∧ (run ratEnv awaitingCameraApp
          [.init, .tfReadyDone 1 (.ok ()), .setBackendDone 1 (.ok ())]).tasks
        = [(0, Cont.camera), (1, Cont.camera)]
      ∧ (run ratEnv awaitingCameraApp
          [.init, .tfReadyDone 1 (.ok ()), .setBackendDone 1 (.ok ())]).trace
        = awaitingCameraApp.trace
          ++ [Event.tfReady, Event.setBackend "webgl", Event.getUserMedia 640 480 "user"] := by
  refine ⟨rfl, rfl, rfl⟩

/-- C10, amended: `init` has no guard against re-entry.  A call of `init` is
accepted in every state, whatever calls are pending, and runs its own setup
sequence at once; within that one call the stages are sequential: `tf.ready`,
`tf.setBackend`, `getUserMedia`, the metadata wait, `initializePoseDetector`,
then the start of the loop.  The pending calls are left as they are. -/
theorem init_runs_setup_in_every_state (env : Env F) (s : App F) (stream : Stream)
    (detector : Detector) (hfresh : ∀ t ∈ s.tasks, t.1 ≠ s.nextId) :
    (run env s [.init, .tfReadyDone s.nextId (.ok ()), .setBackendDone s.nextId (.ok ())]).trace
        = s.trace ++ [Event.tfReady, Event.setBackend "webgl", Event.getUserMedia 640 480 "user"]
      ∧ (run env s [.init, .tfReadyDone s.nextId (.ok ()),
          .setBackendDone s.nextId (.ok ())]).tasks = s.tasks ++ [(s.nextId, Cont.camera)]
      ∧ (run env s [.init, .tfReadyDone s.nextId (.ok ()), .setBackendDone s.nextId (.ok ()),
          .getUserMediaDone s.nextId (.ok stream), .loadedmetadata,
          .createDetectorDone s.nextId (.ok detector)]).trace
        = s.trace ++ [Event.tfReady, Event.setBackend "webgl", Event.getUserMedia 640 480 "user",
            Event.initializePoseDetector, Event.hideError, Event.startDetection detector,
            Event.estimatePoses detector]
      ∧ (run env s [.init, .tfReadyDone s.nextId (.ok ()), .setBackendDone s.nextId (.ok ()),
          .getUserMediaDone s.nextId (.ok stream), .loadedmetadata,
          .createDetectorDone s.nextId (.ok detector)]).tasks
        = s.tasks ++ [(s.nextId, Cont.estimate detector)] := by
  have h : ∀ (a : ℕ) (b : Cont), (a, b) ∈ s.tasks → ¬a = s.nextId :=
    fun a b hab => hfresh (a, b) hab
  refine ⟨?_, ?_, ?_, ?_⟩ <;>
  simp [run, step, App.awaiting, App.emit, App.suspend, App.finish, UI.hideError, detectPose,
    requestCameraPermission, initializePoseDetector, lookup_append_fresh _ _ _ hfresh,
    map_append_fresh _ _ _ _ hfresh, h]

/-- Witness for C10 amended: a second `init` call while the first awaits the camera. -/
theorem init_runs_setup_in_every_state_witness :
    (∀ t ∈ awaitingCameraApp.tasks, t.1 ≠ awaitingCameraApp.nextId)
      ∧ (run ratEnv awaitingCameraApp [.init, .tfReadyDone awaitingCameraApp.nextId (.ok ()),
          .setBackendDone awaitingCameraApp.nextId (.ok ())]).tasks
        = awaitingCameraApp.tasks ++ [(awaitingCameraApp.nextId, Cont.camera)] :=
  ⟨by decide,
    (init_runs_setup_in_every_state ratEnv awaitingCameraApp ⟨2⟩ ⟨8⟩ (by decide)).2.1⟩

end LoopClaims

section IterationClaims

variable {F : Type} [LinearOrderedField F]

/-- A pending call moved to another await is found there. -/
lemma lookup_map_suspend (ts : List (Nat × Cont)) (n : Nat) (c d : Cont)
    (h : ts.lookup n = some c) :
    (ts.map fun t => if t.1 = n then (n, d) else t).lookup n = some d := by
  induction ts with
  | nil => simp at h
  | cons t ts ih =>
    obtain ⟨i, x⟩ := t
    by_cases hi : i = n
    · subst hi
      simp [List.lookup_cons]
    · have hb : (n == i) = false := by simpa using fun hn => hi hn.symm
      simp only [List.lookup_cons, hb] at h
      simp only [List.map_cons, hi, if_false, List.lookup_cons, hb]
      exact ih h

/-- An iteration whose inference call succeeded leaves the error banner as it was. -/
lemma detectPoseResume_ok_banner (env : Env F) (id : Nat) (detector : Detector)
    (poses : List (Pose F)) (s : App F) :
    (detectPoseResume env id detector (.ok poses) s).errorText = s.errorText
      ∧ (detectPoseResume env id detector (.ok poses) s).errorDisplay = s.errorDisplay := by
  cases poses with
  | nil => simp [detectPoseResume, Canvas.clear, App.emit, App.suspend]
  | cons pose rest =>
    simp only [detectPoseResume, App.emit, App.suspend]
    rw [calculateAccuracy_eq]
    split_ifs
    · simp [drawReferencePoints_eq, drawPose_eq, Canvas.clear, App.emit]
    · simp [drawReferencePoints_eq, drawPose_eq, Canvas.clear, App.emit, UI.updateAccuracy]

/-- C11: an iteration whose inference call succeeds makes its calls in a fixed
order.  With a non-empty result list: `clear`, then for the first pose alone
one blue point per keypoint with score above 0.3, then a green point and the
name label of every reference point, then the accuracy update computed from
that same pose, then `requestAnimationFrame`; the other poses of the list
change nothing.  With an empty result list: `clear` and
`requestAnimationFrame` only, the accuracy text untouched.  In both cases the
error banner is untouched and the next iteration is pending. -/
theorem successful_iteration_order (env : Env F) (s : App F) (id : Nat) (detector : Detector)
    (hwait : s.awaiting id = some (Cont.estimate detector)) :
    (∀ pose rest, (step env s (.estimatePosesDone id (.ok (pose :: rest)))).trace
        = s.trace ++ ([Event.clear] ++ drawPoseEvents pose ++ referenceEvents env
            ++ accuracyEvents env pose ++ [Event.requestAnimationFrame]))
      ∧ (∀ pose rest, step env s (.estimatePosesDone id (.ok (pose :: rest)))
        = step env s (.estimatePosesDone id (.ok [pose])))
      ∧ (step env s (.estimatePosesDone id (.ok []))).trace
        = s.trace ++ [Event.clear, Event.requestAnimationFrame]
      ∧ (step env s (.estimatePosesDone id (.ok []))).accuracyText = s.accuracyText
      ∧ (∀ poses, (step env s (.estimatePosesDone id (.ok poses))).errorText = s.errorText
          ∧ (step env s (.estimatePosesDone id (.ok poses))).errorDisplay = s.errorDisplay
          ∧ (step env s (.estimatePosesDone id (.ok poses))).isRunning = s.isRunning
          ∧ (step env s (.estimatePosesDone id (.ok poses))).awaiting id
            = some (Cont.frame detector)) := by
  have hstep : ∀ poses, step env s (.estimatePosesDone id (.ok poses))
      = detectPoseResume env id detector (.ok poses) s := by
    intro poses
    simp only [step, hwait]
  refine ⟨?_, ?_, ?_, ?_, ?_⟩
  · intro pose rest
    rw [hstep, (detectPoseResume_ok env id detector (pose :: rest) s).1]
    simp [frameEvents]
  · intro pose rest
    rw [hstep, hstep]
    rfl
  · rw [hstep, (detectPoseResume_ok env id detector [] s).1]
    simp [frameEvents]
  · rw [hstep]
    simp [detectPoseResume, Canvas.clear, App.emit, App.suspend]
  · intro poses
    rw [hstep]
    obtain ⟨_, h2, h3⟩ := detectPoseResume_ok env id detector poses s
    obtain ⟨h4, h5⟩ := detectPoseResume_ok_banner env id detector poses s
    refine ⟨h4, h5, h2, ?_⟩
    rw [App.awaiting, h3]
    exact lookup_map_suspend s.tasks id _ _ hwait

/-- Witness for C11: the first inference call of `runningApp` returns two poses. -/
theorem successful_iteration_order_witness :
    runningApp.awaiting 0 = some (Cont.estimate ⟨7⟩)
      ∧ (step ratEnv runningApp
          (.estimatePosesDone 0 (.ok (poseNoseOff40 :: [poseNoseExact])))).trace
        = runningApp.trace ++ ([Event.clear] ++ drawPoseEvents poseNoseOff40
            ++ referenceEvents ratEnv ++ accuracyEvents ratEnv poseNoseOff40
            ++ [Event.requestAnimationFrame]) :=
  ⟨by decide,
    (successful_iteration_order ratEnv runningApp 0 ⟨7⟩ (by decide)).1 poseNoseOff40
      [poseNoseExact]⟩

end IterationClaims

end Yoga

/-! ## The directory handlers: computed average ratings -/

namespace Server

section HandlerFacts

variable {F : Type} [LinearOrderedField F]

/-- The expression `Number(r.rating) || 0` is the number read, or 0 for `NaN`. -/
lemma ratingNumber_eq (toNumber : String → Option F) (r : Rating) :
    ratingNumber toNumber r = (r.rating.bind toNumber).getD 0 := by
  unfold ratingNumber
  cases r.rating.bind toNumber with
  | none => rfl
  | some n =>
    by_cases h : n = 0
    · simp [h]
    · simp [h]

/-- The entry of `id` after the `forEach`: the entry before plus the sum and the
number of the ratings of `id`; untouched when `id` has no rating. -/
lemma foldl_tally (toNumber : String → Option F) (rs : List Rating)
    (m : String → Option (Tally F)) (id : String) :
    rs.foldl (tally toNumber) m id =
      if (rs.filter fun r => decide (r.lawyerId = id)).isEmpty then m id
      else some
        ⟨((m id).getD ⟨0, 0⟩).sum
            + ((rs.filter fun r => decide (r.lawyerId = id)).map
                fun r => (r.rating.bind toNumber).getD 0).sum,
          ((m id).getD ⟨0, 0⟩).count
            + (rs.filter fun r => decide (r.lawyerId = id)).length⟩ := by
  induction rs generalizing m with
  | nil => simp
  | cons r rs ih =>
    rw [List.foldl_cons, ih]
    by_cases hr : r.lawyerId = id
    · have hm : tally toNumber m r id
          = some ⟨((m id).getD ⟨0, 0⟩).sum + (r.rating.bind toNumber).getD 0,
              ((m id).getD ⟨0, 0⟩).count + 1⟩ := by
        simp [tally, hr, ratingNumber_eq]
      simp only [hm, List.filter_cons, hr, decide_True, if_true, List.isEmpty_cons,
        Bool.false_eq_true, if_false, List.map_cons, List.sum_cons, List.length_cons,
        Option.getD_some]
      split_ifs with he
      · have : (rs.filter fun r => decide (r.lawyerId = id)) = [] := by
          simpa using he
        simp [this]
      · simp only [add_assoc, Option.some.injEq, Tally.mk.injEq, true_and]
        omega
    · have hm : tally toNumber m r id = m id := by
        have : id ≠ r.lawyerId := fun h => hr h.symm
        simp [tally, this]
      simp only [hm, List.filter_cons, hr, decide_False, Bool.false_eq_true, if_false]

/-- The ratings of a profile found survive the `$in` filter. -/
lemma filter_in_filter (ratings : List Rating) (ids : List String) (id : String)
    (h : id ∈ ids) :
    ((ratings.filter fun r => decide (r.lawyerId ∈ ids)).filter
        fun r => decide (r.lawyerId = id))
      = ratings.filter fun r => decide (r.lawyerId = id) := by
  rw [List.filter_filter]
  apply List.filter_congr
  intro r _
  by_cases hr : r.lawyerId = id
  · simp [hr, h]
  · simp [hr]

/-- The value `avg` the `map` callback computes for a profile found. -/
lemma withAvgRating_eq (toNumber : String → Option F) (ratings : List Rating)
    (ids : List String) (l : Profile F) (h : l._id ∈ ids) :
    withAvgRating
        ((ratings.filter fun r => decide (r.lawyerId ∈ ids)).foldl (tally toNumber)
          fun _ => none) l
      = { l with
          fields := assign "avgRating" (Value.num (meanRating toNumber ratings l._id))
            l.fields } := by
  unfold withAvgRating meanRating
  rw [foldl_tally, filter_in_filter ratings ids l._id h]
  by_cases he : (ratings.filter fun r => decide (r.lawyerId = l._id)).isEmpty = true
  · simp only [he, if_true]
  · simp only [he, Bool.false_eq_true, if_false, Option.getD_none, zero_add,
      Nat.zero_add]

end HandlerFacts

section AssignFacts

variable {F : Type}

/-- A field under another key is in the new object exactly when it was stored. -/
lemma mem_assign_of_ne (key : String) (value : Value F) (fields : List (String × Value F))
    (f : String × Value F) (hf : f.1 ≠ key) :
    f ∈ assign key value fields ↔ f ∈ fields := by
  unfold assign
  split_ifs
  · rw [List.mem_map]
    constructor
    · rintro ⟨g, hg, hgf⟩
      by_cases hk : g.1 = key
      · rw [if_pos hk] at hgf
        exact absurd (by rw [← hgf]) hf
      · rw [if_neg hk] at hgf
        exact hgf ▸ hg
    · intro h
      exact ⟨f, h, if_neg hf⟩
  · rw [List.mem_append, List.mem_singleton]
    constructor
    · rintro (h | h)
      · exact h
      · exact absurd (by rw [h]) hf
    · exact Or.inl

/-- The new object holds the assigned key with the assigned value and no other. -/
lemma mem_assign_key (key : String) (value v : Value F) (fields : List (String × Value F)) :
    (key, v) ∈ assign key value fields ↔ v = value := by
  unfold assign
  split_ifs with h
  · rw [List.mem_map]
    constructor
    · rintro ⟨g, _, hgf⟩
      by_cases hk : g.1 = key
      · rw [if_pos hk] at hgf
        exact (Prod.mk.inj hgf).2.symm
      · rw [if_neg hk] at hgf
        exact absurd (by rw [hgf]) hk
    · rintro rfl
      obtain ⟨g, hg, hk⟩ := List.any_eq_true.mp h
      exact ⟨g, hg, if_pos (by simpa using hk)⟩
  · rw [List.mem_append, List.mem_singleton]
    constructor
    · rintro (hm | hm)
      · exact absurd (List.any_eq_true.mpr ⟨(key, v), hm, by simp⟩) h
      · exact (Prod.mk.inj hm).2
    · rintro rfl
      exact Or.inr rfl

/-- Without a stored field under the key, the assigned field is added last. -/
lemma assign_of_absent (key : String) (value : Value F) (fields : List (String × Value F))
    (h : ∀ f ∈ fields, f.1 ≠ key) :
    assign key value fields = fields ++ [(key, value)] := by
  unfold assign
  rw [if_neg]
  intro hany
  obtain ⟨g, hg, hk⟩ := List.any_eq_true.mp hany
  exact h g hg (by simpa using hk)

end AssignFacts

section HandlerClaims

variable {F : Type} [LinearOrderedField F]

/-- C12, as stated, fails: the verified profile `lawyerStored` has the stored
field `avgRating` with value `"4.5"` and no ratings; the profile the handler
returns for it does not hold that field, its `avgRating` is the number 0. -/
theorem stored_avgRating_is_replaced :
    lawyerStored ∈ [lawyerStored].filter isVerified
      ∧ ("avgRating", Value.str "4.5") ∈ lawyerStored.fields
      ∧ getLawyers natNumber [lawyerStored] []
        = [⟨"65a1", [("name", .str "Asha"), ("isVerified", .bool true),
            ("avgRating", .num 0)]⟩]
      ∧ ∀ l ∈ getLawyers natNumber [lawyerStored] [],
          ("avgRating", Value.str "4.5") ∉ l.fields := by
  have h : getLawyers natNumber [lawyerStored] []
      = [⟨"65a1", [("name", .str "Asha"), ("isVerified", .bool true),
          ("avgRating", .num 0)]⟩] := rfl
  refine ⟨by decide, by decide, h, ?_⟩
  intro l hl
  rw [h, List.mem_singleton] at hl
  subst hl
  simp

/-- C12, amended: each handler returns the verified profiles, in the order of
the query result; each keeps its `_id` and every stored field other than
`avgRating`, and its `avgRating` is the arithmetic mean of the ratings whose
`lawyerId` is its id, a rating that is not numeric counting as 0 in the sum and
as one in the divisor, and 0 when it has no rating.  A stored `avgRating` is
replaced by that number; without one the field is added last. -/
theorem directory_avgRating (toNumber : String → Option F) (profiles : List (Profile F))
    (ratings : List Rating) :
    getLawyers toNumber profiles ratings
        = (profiles.filter isVerified).map (fun l =>
          ⟨l._id, assign "avgRating" (.num (meanRating toNumber ratings l._id)) l.fields⟩)
      ∧ getDocumentwriters toNumber profiles ratings
        = (profiles.filter isVerified).map (fun l =>
          ⟨l._id, assign "avgRating" (.num (meanRating toNumber ratings l._id)) l.fields⟩)
      ∧ (getLawyers toNumber profiles ratings).map (fun l => l._id)
        = (profiles.filter isVerified).map (fun l => l._id)
      ∧ ∀ (value : Value F) (fields : List (String × Value F)),
          (∀ f : String × Value F, f.1 ≠ "avgRating" →
            (f ∈ assign "avgRating" value fields ↔ f ∈ fields))
          ∧ (∀ v, ("avgRating", v) ∈ assign "avgRating" value fields ↔ v = value)
          ∧ ((∀ f ∈ fields, f.1 ≠ "avgRating") →
            assign "avgRating" value fields = fields ++ [("avgRating", value)]) := by
  have hmap : getLawyers toNumber profiles ratings
      = (profiles.filter isVerified).map fun l =>
        ⟨l._id, assign "avgRating" (.num (meanRating toNumber ratings l._id)) l.fields⟩ := by
    unfold getLawyers
    apply List.map_congr_left
    intro l hl
    exact withAvgRating_eq toNumber ratings _ l (List.mem_map.mpr ⟨l, hl, rfl⟩)
  refine ⟨hmap, hmap, ?_, ?_⟩
  · rw [hmap, List.map_map]
    rfl
  · intro value fields
    exact ⟨fun f hf => mem_assign_of_ne "avgRating" value fields f hf,
      fun v => mem_assign_key "avgRating" value v fields,
      assign_of_absent "avgRating" value fields⟩

/-- The mean of the ratings of `lawyerPlain`: 4, a text and 5 give 3. -/
lemma meanRating_lawyerPlain : meanRating natNumber someRatings "65a2" = 3 := by
  have h4 : natNumber "4" = some 4 := by
    rw [natNumber, if_pos (by decide)]
    simp
  have h5 : natNumber "5" = some 5 := by
    rw [natNumber, if_pos (by decide)]
    simp
  have hg : natNumber "good" = none := by
    rw [natNumber, if_neg (by decide)]
  have hf : (someRatings.filter fun r => decide (r.lawyerId = "65a2"))
      = [⟨"65a2", some "4"⟩, ⟨"65a2", some "good"⟩, ⟨"65a2", some "5"⟩] := by decide
  simp only [meanRating, hf, List.isEmpty_cons, Bool.false_eq_true, if_false, List.map_cons,
    List.map_nil, Option.some_bind, h4, h5, hg, Option.getD_some, Option.getD_none,
    List.sum_cons, List.sum_nil, List.length_cons, List.length_nil]
  norm_num

/-- The mean of the ratings of `lawyerStored`, which has none, is 0. -/
lemma meanRating_lawyerStored : meanRating natNumber someRatings "65a1" = 0 := by
  have hf : (someRatings.filter fun r => decide (r.lawyerId = "65a1")) = [] := by decide
  simp only [meanRating, hf, List.isEmpty_nil, if_true]

/-- Witness for C12 amended: two verified profiles and one that is not, with
the ratings `someRatings`. -/
theorem directory_avgRating_witness :
    getLawyers natNumber [lawyerStored, lawyerPending, lawyerPlain] someRatings
      = [⟨"65a1", [("name", .str "Asha"), ("isVerified", .bool true), ("avgRating", .num 0)]⟩,
          ⟨"65a2", [("name", .str "Ravi"), ("isVerified", .bool true),
            ("avgRating", .num 3)]⟩] :=
  (directory_avgRating natNumber [lawyerStored, lawyerPending, lawyerPlain] someRatings).1.trans
    (by
      have hv : [lawyerStored, lawyerPending, lawyerPlain].filter isVerified
          = [lawyerStored, lawyerPlain] := by decide
      rw [hv]
      simp only [List.map_cons, List.map_nil]
      rw [show lawyerStored._id = "65a1" from rfl, show lawyerPlain._id = "65a2" from rfl,
        meanRating_lawyerStored, meanRating_lawyerPlain]
      rfl)

end HandlerClaims

end Server
